import Mathlib

/-! Gadget domain decomposition (`src/mpigadgetio.cxx`).

A shallow embedding of the three routines of `mpigadgetio.cxx`
(`MPIDomainExtentGadget`, `MPIDomainDecompositionGadget`, `MPINumInDomainGadget`)
and theorems about them.

Conventions of the embedding

* C arrays are total functions on indices, an assignment `a[i] = v` is a
  function update; the theorems only ever look at indices inside the bounds.
* `Double_t` / `FLOAT` values are elements of an arbitrary type `F`; the
  arithmetic on them is a parameter (`FloatOps`), so nothing proved here
  depends on how floating point rounds. The integer that line 262 obtains
  through a floating-point logarithm is a parameter as well (`floatLog2`).
* A variable that the source reads before writing it (a freshly allocated
  array, an unset local) is a parameter of the definition.
* The body of `MPIDomainDecompositionGadget` is disabled in the source by a
  comment; the routine as compiled and the text of the disabled block are
  embedded separately.
* Particle counts are natural numbers, counters are integers (`Int_t`).
* The preprocessor framing `GADGET2FORMAT` only skips bytes; a snapshot file is
  given by its header record and its position records.
-/

namespace Gadget

/-! ## Constants and options -/

/-- Modelled from the spec: the particle search type `opt.partsearchtype`, one of
ALL, DARK_MATTER, STAR, GAS (the constants `PSTALL`, `PSTDARK`, `PSTSTAR`,
`PSTGAS` are declared outside this file). -/
inductive TypeFilter where
  | PSTALL
  | PSTDARK
  | PSTSTAR
  | PSTGAS
  deriving DecidableEq, Repr

open TypeFilter

/-- Modelled from the spec: type slot 0 is gas (`GASTYPE`). -/
def GASTYPE : Nat := 0
/-- Modelled from the spec: type slot 4 is star (`STARTYPE`). -/
def STARTYPE : Nat := 4
/-- Modelled from the spec: gadget type slot 0 is gas (`GGASTYPE`). -/
def GGASTYPE : Nat := 0
/-- Modelled from the spec: gadget type slot 4 is star (`GSTARTYPE`). -/
def GSTARTYPE : Nat := 4
/-- Modelled from the spec: gadget type slot 5 is boundary / black hole (`GBHTYPE`). -/
def GBHTYPE : Nat := 5
/-- Modelled from the spec: six type slots (`NGTYPE`). -/
def NGTYPE : Nat := 6

/-- C logical negation of an integer: `!j` is `1` when `j` is zero, else `0`. -/
def cNot (j : Nat) : Nat := if j = 0 then 1 else 0

/-- The type test of the header pass, lines 186-192, as C parses it: every `else`
belongs to the nearest unmatched `if`, and `!j==GASTYPE` is `(!j)==GASTYPE`.
```
if (opt.partsearchtype==PSTALL) Ntot+=header[i].npart[j];
else if (opt.partsearchtype==PSTDARK)
    if (!j==GASTYPE||j==STARTYPE) Ntot+=header[i].npart[j];
    else if (opt.partsearchtype==PSTSTAR)
        if (j==STARTYPE) Ntot+=header[i].npart[j];
        else if (opt.partsearchtype==PSTGAS)
            if (j==GASTYPE) Ntot+=header[i].npart[j];
```
The value is `true` when the statement `Ntot+=header[i].npart[j]` is reached. -/
def countsInNtot (pst : TypeFilter) (j : Nat) : Bool :=
  if pst = PSTALL then true
  else if pst = PSTDARK then
    if cNot j = GASTYPE ∨ j = STARTYPE then true
    else if pst = PSTSTAR then
      if j = STARTYPE then true
      else if pst = PSTGAS then
        if j = GASTYPE then true else false
      else false
    else false
  else false

/-- The type test of the 1-D histogram pass, lines 217-243; same shape as the
header pass, with the histogram update as the guarded statement. -/
def countsInHisto1d (pst : TypeFilter) (k : Nat) : Bool :=
  if pst = PSTALL then true
  else if pst = PSTDARK then
    if cNot k = GASTYPE ∨ k = STARTYPE then true
    else if pst = PSTSTAR then
      if k = STARTYPE then true
      else if pst = PSTGAS then
        if k = GASTYPE then true else false
      else false
    else false
  else false

/-- The type test of the 3-D histogram pass, lines 346-368. The first branch is
braced, the later ones hang as in the other two passes. -/
def countsInHisto3d (pst : TypeFilter) (k : Nat) : Bool :=
  if pst = PSTALL then true
  else if pst = PSTDARK then
    if cNot k = GASTYPE ∨ k = STARTYPE then true
    else if pst = PSTSTAR then
      if k = STARTYPE then true
      else if pst = PSTGAS then
        if k = GASTYPE then true else false
      else false
    else false
  else false

/-! ## Loops -/

/-- The loop `for (i=0;i<n;i++) body(i)` acting on a state. -/
def forLoop {σ : Type} : Nat → (Nat → σ → σ) → σ → σ
  | 0, _, s => s
  | n + 1, body, s => body n (forLoop n body s)

/-- The loop `for (i=0;i<n;i++) body(i)` where the body may end the process. -/
def forLoopE {ε σ : Type} : Nat → (Nat → σ → Except ε σ) → σ → Except ε σ
  | 0, _, s => Except.ok s
  | n + 1, body, s =>
    match forLoopE n body s with
    | Except.error e => Except.error e
    | Except.ok s1 => body n s1

/-! ## Data model -/

/-- Arithmetic on `Double_t` values, left abstract. -/
structure FloatOps (F : Type) where
  ofInt : Int → F
  add : F → F → F
  sub : F → F → F
  mul : F → F → F
  div : F → F → F
  log : F → F
  lt : F → F → Bool
  ge : F → F → Bool
  /-- The literal `0.001`. -/
  milli : F

/-- The fields of `struct gadget_header` this file reads. -/
structure gadget_header (F : Type) where
  npart : Nat → Nat
  BoxSize : F

/-- One snapshot file: the stored header, and the stored position record `n` of
type slot `k`, for `n < npart[k]`. -/
structure GadgetFile (F : Type) where
  header : gadget_header F
  pos : Nat → Nat → F × F × F

/-- The options read by this file. -/
structure Options where
  num_files : Nat
  partsearchtype : TypeFilter
  iBaryonSearch : Int

/-- File operations, recorded in the order they happen. -/
inductive FileOp where
  | opened (i : Nat)
  | openFailed (i : Nat)
  | headerRead (i : Nat)
  | posRead (i k n : Nat)
  | closed (i : Nat)
  deriving DecidableEq, Repr

/-- Whether a file operation reads a position record. -/
def FileOp.isPosRead : FileOp → Bool
  | FileOp.posRead _ _ _ => true
  | _ => false

/-- Whether a file operation is an attempt to open a file. -/
def FileOp.isOpen : FileOp → Bool
  | FileOp.opened _ => true
  | FileOp.openFailed _ => true
  | _ => false

/-- Reason for `exit(0)`. -/
inductive Fatal where
  | cantOpenFile (i : Nat)
  deriving DecidableEq, Repr

/-- The process-wide variables of one rank that this file reads or writes, and
the file operations the rank has performed. -/
structure MPIState (F : Type) where
  /-- Array `mpi_xlim[axis][0/1]`. -/
  mpi_xlim : Nat → Nat → F
  /-- Array `mpi_domain[task].bnd[axis][0/1]`. -/
  mpi_domain : Nat → Nat → Nat → F
  mpi_nxsplit : Nat → Nat
  mpi_ideltax : Nat → Nat
  Nlocal : Int
  /-- Entry `Nlocalbaryon[0]`. -/
  Nlocalbaryon0 : Int
  trace : List FileOp

/-- The routines and tables this file takes from elsewhere. -/
structure Env (F : Type) where
  /-- Method `gadget_header::Endian`, the byte-order correction of a header. -/
  Endian : gadget_header F → gadget_header F
  /-- Function `LittleFloat`, the byte-order correction of one float. -/
  LittleFloat : F → F
  /-- Function `MPIGetParticlesProcessor`: owner of a point; the box table it
  consults does not change during the pass. -/
  MPIGetParticlesProcessor : F → F → F → Nat
  /-- Array `ireadtask` as filled by `MPIDistributeReadTasks`. -/
  ireadtask : Nat → Int
  /-- Entry `ireadfile[i]` as filled by `MPISetFilesRead` on rank `ThisTask`. -/
  MPISetFilesRead : (ThisTask : Nat) → (i : Nat) → Int
  MPIInitialDomainDecomposition : MPIState F → MPIState F

/-- The assignment `a[m][s] = v` on a two-index table. -/
def set2 {F : Type} (a : Nat → Nat → F) (m s : Nat) (v : F) : Nat → Nat → F :=
  fun m1 s1 => if m1 = m ∧ s1 = s then v else a m1 s1

/-- The assignment `mpi_domain[t].bnd[m][s] = v`. -/
def setBnd {F : Type} (d : Nat → Nat → Nat → F) (t m s : Nat) (v : F) : Nat → Nat → Nat → F :=
  fun t1 m1 s1 => if t1 = t ∧ m1 = m ∧ s1 = s then v else d t1 m1 s1

/-- The statement `a[i]++` on a counter array. -/
def incr (a : Nat → Int) (i : Nat) : Nat → Int :=
  fun j => if j = i then a j + 1 else a j

/-! ## `MPIDomainExtentGadget` (lines 41-129) -/

/-- Local arrays of `MPIDomainExtentGadget`. -/
structure ExtentLocals (F : Type) where
  header : Nat → gadget_header F
  trace : List FileOp

/-- Body of the file loop, lines 54-75: open file `i`, leave with `exit(0)` when
that fails, otherwise read the header and correct its byte order. -/
def openHeader {F : Type} (env : Env F) (fs : Nat → Option (GadgetFile F)) (i : Nat)
    (loc : ExtentLocals F) : Except Fatal (ExtentLocals F) :=
  match fs i with
  | none => Except.error (Fatal.cantOpenFile i)
  | some f =>
    Except.ok
      { header := Function.update loc.header i (env.Endian f.header)
        trace := loc.trace ++ [FileOp.opened i, FileOp.headerRead i] }

/-- Line 76: `for (m=0;m<3;m++) {mpi_xlim[m][0]=0;mpi_xlim[m][1]=header[0].BoxSize;}`. -/
def setBoxLimits {F : Type} (ops : FloatOps F) (header : Nat → gadget_header F)
    (xlim : Nat → Nat → F) : Nat → Nat → F :=
  forLoop 3 (fun m x => set2 (set2 x m 0 (ops.ofInt 0)) m 1 (header 0).BoxSize) xlim

/-- Lines 114-117, compiled under `MPIEXPANDLIM`. -/
def expandLimits {F : Type} (ops : FloatOps F) (xlim : Nat → Nat → F) : Nat → Nat → F :=
  forLoop 3 (fun j x =>
    let dx := ops.mul ops.milli (ops.sub (x j 1) (x j 0))
    set2 (set2 x j 0 (ops.sub (x j 0) dx)) j 1 (ops.add (x j 1) dx)) xlim

/-- The block run by the coordinator, lines 51-119. `junk` is the content of the
freshly allocated `header` array. -/
def extentCoordinator {F : Type} (ops : FloatOps F) (env : Env F) (MPIEXPANDLIM : Bool)
    (opt : Options) (fs : Nat → Option (GadgetFile F)) (junk : Nat → gadget_header F)
    (st : MPIState F) : Except Fatal (MPIState F) :=
  match forLoopE opt.num_files (openHeader env fs) { header := junk, trace := st.trace } with
  | Except.error e => Except.error e
  | Except.ok loc =>
    let xlim := setBoxLimits ops loc.header st.mpi_xlim
    Except.ok
      { st with
        mpi_xlim := if MPIEXPANDLIM then expandLimits ops xlim else xlim
        trace := loc.trace }

/-- Lines 123-128: the sole rank takes the whole extent. -/
def soleDomain {F : Type} (ThisTask : Nat) (st : MPIState F) : MPIState F :=
  { st with
    mpi_domain := forLoop 3 (fun i d =>
      setBnd (setBnd d ThisTask i 0 (st.mpi_xlim i 0)) ThisTask i 1 (st.mpi_xlim i 1))
      st.mpi_domain }

/-- Routine `MPIDomainExtentGadget` on one rank. `fs i` is file `i` as this rank finds it,
`none` when it cannot be opened. -/
def MPIDomainExtentGadget {F : Type} (ops : FloatOps F) (env : Env F) (MPIEXPANDLIM : Bool)
    (opt : Options) (fs : Nat → Option (GadgetFile F)) (junk : Nat → gadget_header F)
    (ThisTask NProcs : Nat) (st : MPIState F) : Except Fatal (MPIState F) :=
  match (if ThisTask = 0 then extentCoordinator ops env MPIEXPANDLIM opt fs junk st
         else Except.ok st) with
  | Except.error e => Except.error e
  | Except.ok st1 =>
    -- MPI_Barrier(MPI_COMM_WORLD)
    Except.ok (if NProcs = 1 then soleDomain ThisTask st1 else st1)

/-! ## `MPINumInDomainGadget` (lines 506-611) -/

/-- Routine `MPIDomainDecompositionGadget` as compiled, lines 132-503: the body of
`if (ThisTask==0)` is one comment. -/
def MPIDomainDecompositionGadget {F : Type} (_opt : Options) (ThisTask : Nat)
    (st : MPIState F) : MPIState F :=
  if ThisTask = 0 then st else st

/-- Local variables of the assignment pass on one rank. -/
structure ReadState (F : Type) where
  Nbuf : Nat → Int
  Nbaryonbuf : Nat → Int
  header : Nat → gadget_header F
  ctemp : F × F × F
  trace : List FileOp

/-- Which statement the type test of lines 574-596 reaches. -/
inductive CountAction where
  | primary
  | baryon
  | skip
  deriving DecidableEq, Repr

/-- The type test of the assignment pass, lines 574-596. -/
def assignmentAction (opt : Options) (k : Nat) : CountAction :=
  if opt.partsearchtype = PSTALL then CountAction.primary
  else if opt.partsearchtype = PSTDARK then
    if ¬ (k = GGASTYPE ∨ k = GSTARTYPE ∨ k = GBHTYPE) then CountAction.primary
    else if opt.iBaryonSearch ≠ 0 then CountAction.baryon
    else CountAction.skip
  else if opt.partsearchtype = PSTSTAR then
    if k = STARTYPE then CountAction.primary else CountAction.skip
  else if opt.partsearchtype = PSTGAS then
    if k = GASTYPE then CountAction.primary else CountAction.skip
  else CountAction.skip

/-- Whether `Nbuf[ibuf]++` is reached for a particle of type `k`. -/
def countsInAssignment (opt : Options) (k : Nat) : Bool :=
  decide (assignmentAction opt k = CountAction.primary)

/-- Whether `Nbaryonbuf[ibuf]++` is reached for a particle of type `k`. -/
def countsAsBaryon (opt : Options) (k : Nat) : Bool :=
  decide (assignmentAction opt k = CountAction.baryon)

/-- Body of the particle loop, lines 572-596. A read from a stream that failed to
open leaves `ctemp` as it was. The position goes to the owner lookup as stored. -/
def countParticle {F : Type} (env : Env F) (opt : Options) (file : Option (GadgetFile F))
    (i k n : Nat) (rs : ReadState F) : ReadState F :=
  let rs1 : ReadState F :=
    match file with
    | some f => { rs with ctemp := f.pos k n, trace := rs.trace ++ [FileOp.posRead i k n] }
    | none => rs
  let ibuf := env.MPIGetParticlesProcessor rs1.ctemp.1 rs1.ctemp.2.1 rs1.ctemp.2.2
  match assignmentAction opt k with
  | CountAction.primary => { rs1 with Nbuf := incr rs1.Nbuf ibuf }
  | CountAction.baryon => { rs1 with Nbaryonbuf := incr rs1.Nbaryonbuf ibuf }
  | CountAction.skip => rs1

/-- Line 599, `Fgad[i].close()`: closes the stream when it is open. -/
def closeOps {F : Type} (file : Option (GadgetFile F)) (i : Nat) : List FileOp :=
  match file with
  | some _ => [FileOp.closed i]
  | none => []

/-- Body of the file loop for a file this rank reads, lines 545-599. There is no
test of the stream after `open`: when the file cannot be opened the header read
leaves `header[i]` as allocated, and the loops run on that. -/
def readFile {F : Type} (env : Env F) (opt : Options) (fs : Nat → Option (GadgetFile F))
    (i : Nat) (rs : ReadState F) : ReadState F :=
  let rs1 : ReadState F :=
    match fs i with
    | some f =>
      { rs with
        header := Function.update rs.header i f.header
        trace := rs.trace ++ [FileOp.opened i, FileOp.headerRead i] }
    | none => { rs with trace := rs.trace ++ [FileOp.openFailed i] }
  let rs2 : ReadState F :=
    { rs1 with header := Function.update rs1.header i (env.Endian (rs1.header i)) }
  let rs3 : ReadState F :=
    forLoop NGTYPE (fun k s =>
      forLoop ((s.header i).npart k) (fun n s1 => countParticle env opt (fs i) i k n s1) s) rs2
  { rs3 with trace := rs3.trace ++ closeOps (fs i) i }

/-- The assignment pass of one rank up to the reduction, lines 533-601. `junkH` and
`junkC` are the contents of the fresh `header` array and of `ctemp`. -/
def localCounts {F : Type} (env : Env F) (opt : Options) (fs : Nat → Option (GadgetFile F))
    (junkH : Nat → gadget_header F) (junkC : F × F × F) (ThisTask : Nat) : ReadState F :=
  let rs0 : ReadState F :=
    { Nbuf := fun _ => 0, Nbaryonbuf := fun _ => 0, header := junkH, ctemp := junkC, trace := [] }
  if 0 ≤ env.ireadtask ThisTask then
    forLoop opt.num_files (fun i rs =>
      if env.MPISetFilesRead ThisTask i ≠ 0 then readFile env opt fs i rs else rs) rs0
  else rs0

/-- The collective `MPI_Allreduce(buf,mpi_nlocal,NProcs,MPI_Int_t,MPI_SUM,...)`:
entry `s` of the result is the sum of entry `s` over all ranks. -/
def MPI_Allreduce_SUM (NProcs : Nat) (buf : Nat → Nat → Int) : Nat → Int :=
  fun s => ∑ r in Finset.range NProcs, buf r s

/-- Lines 512-609 on all ranks, after the extent step: every rank seeds its
boxes, runs the decomposition routine, counts its files, and takes its slot of
the reduced arrays. `fs r` is the file set as rank `r` finds it. -/
def countAndReduce {F : Type} (env : Env F) (opt : Options)
    (fs : Nat → Nat → Option (GadgetFile F)) (junkH : Nat → Nat → gadget_header F)
    (junkC : Nat → F × F × F) (NProcs : Nat) (st : Nat → MPIState F) : Nat → MPIState F :=
  fun ThisTask =>
    let st2 := MPIDomainDecompositionGadget opt ThisTask
      (env.MPIInitialDomainDecomposition (st ThisTask))
    let loc := fun r => localCounts env opt (fs r) (junkH r) (junkC r) r
    { st2 with
      Nlocal := MPI_Allreduce_SUM NProcs (fun r => (loc r).Nbuf) ThisTask
      Nlocalbaryon0 :=
        if opt.iBaryonSearch ≠ 0 then
          MPI_Allreduce_SUM NProcs (fun r => (loc r).Nbaryonbuf) ThisTask
        else st2.Nlocalbaryon0
      trace := st2.trace ++ (loc ThisTask).trace }

/-- Routine `MPINumInDomainGadget` on a job of `NProcs` ranks; `st r` is the state
of rank `r`. In `MPIDomainExtentGadget` only rank 0 opens files and can leave
with `exit(0)`, which ends the job; on the other ranks the call changes nothing
when `NProcs > 1`. The call `InitEndian()` of line 509 prepares the byte-order
routines and touches none of the variables of the state. -/
def MPINumInDomainGadget {F : Type} (ops : FloatOps F) (env : Env F) (MPIEXPANDLIM : Bool)
    (opt : Options) (fs : Nat → Nat → Option (GadgetFile F))
    (junkH : Nat → Nat → gadget_header F) (junkC : Nat → F × F × F) (NProcs : Nat)
    (st : Nat → MPIState F) : Except Fatal (Nat → MPIState F) :=
  if 1 < NProcs then
    match MPIDomainExtentGadget ops env MPIEXPANDLIM opt (fs 0) (junkH 0) 0 NProcs (st 0) with
    | Except.error e => Except.error e
    | Except.ok st0 =>
      Except.ok (countAndReduce env opt fs junkH junkC NProcs
        (fun r => if r = 0 then st0 else st r))
  else Except.ok st

/-! ## The disabled decomposition block (lines 151-501)

The body of `MPIDomainDecompositionGadget` is kept in the source inside a
comment. The definitions below follow that text. -/

/-- Lines 183-193: `Ntot`, the filtered particle total of the headers. -/
def headerNtot {F : Type} (opt : Options) (header : Nat → gadget_header F) : Int :=
  forLoop opt.num_files (fun i N =>
    forLoop 6 (fun j N1 =>
      if countsInNtot opt.partsearchtype j then N1 + ((header i).npart j : Int) else N1) N) 0

/-- The loop `for (n=lo;n<hi;n++) body(n)` over `int` bounds. -/
def forRange {σ : Type} (lo hi : Int) (body : Int → σ → σ) (s : σ) : σ :=
  forLoop (hi - lo).toNat (fun d s1 => body (lo + (d : Int)) s1) s

/-- What the walk reads: the filtered total, the coarse bin count, the
histograms `histo1d[0]`, `histo2d`, `histo3d` and the bin edges
`histo3dbinval[n][m]`. -/
structure Histograms (F : Type) where
  Ntot : Int
  nbins3d : Int
  histo1d0 : Int → F
  histo2d : Int → F
  histo3d : Int → F
  histo3dbinval : Int → Nat → F

/-- The local variables `start`, `end`, `bndval`, `binsum`, `lastbin` of the walk. -/
structure WalkVars (F : Type) where
  start0 : Int
  start1 : Int
  start2 : Int
  end0 : Int
  end1 : Int
  end2 : Int
  bndval0 : F
  bndval1 : F
  bndval2 : F
  binsum0 : F
  binsum1 : F
  binsum2 : F
  lastbin : F

/-- The split grid: the axes in priority order and the partition count of each. -/
structure Grid where
  ix : Nat
  iy : Nat
  iz : Nat
  nx : Nat
  ny : Nat
  nz : Nat

/-- The task number `i+j*mpi_nxsplit[ix]+k*(mpi_nxsplit[ix]*mpi_nxsplit[iy])`. -/
def Grid.task (g : Grid) (i j k : Nat) : Nat := i + j * g.nx + k * (g.nx * g.ny)

/-- The scan of lines 410-422 for the boundary along the primary axis, from bin
`n1`; `fuel` bounds the number of rounds. -/
def scan0 {F : Type} (ops : FloatOps F) (h : Histograms F) (g : Grid) :
    Nat → Int → WalkVars F → WalkVars F
  | 0, _, v => v
  | fuel + 1, n1, v =>
    if n1 < h.nbins3d - 1 then
      let v1 : WalkVars F := { v with binsum0 := ops.add v.binsum0 (h.histo1d0 n1) }
      let share := ops.div (ops.ofInt h.Ntot) (ops.ofInt (g.nx : Int))
      if ops.lt v1.binsum0 share && ops.ge (ops.add v1.binsum0 (h.histo1d0 (n1 + 1))) share then
        { v1 with
          end0 := n1
          bndval0 := ops.add (h.histo3dbinval n1 0)
            (ops.div
              (ops.mul (ops.sub (ops.log share) (ops.log v1.binsum0))
                (ops.sub (h.histo3dbinval (n1 + 1) 0) (h.histo3dbinval n1 0)))
              (ops.log (h.histo1d0 (n1 + 1)))) }
      else scan0 ops h g fuel (n1 + 1) v1
    else v

/-- The scan of lines 441-454 for the boundary along the second axis. -/
def scan1 {F : Type} (ops : FloatOps F) (h : Histograms F) (g : Grid) :
    Nat → Int → WalkVars F → WalkVars F
  | 0, _, v => v
  | fuel + 1, n2, v =>
    if n2 < h.nbins3d then
      let lastbin := forRange v.start0 v.end0
        (fun n1 acc => ops.add acc (h.histo2d (n1 * h.nbins3d + n2))) (ops.ofInt 0)
      let v1 : WalkVars F := { v with lastbin := lastbin, binsum1 := ops.add v.binsum1 lastbin }
      let share := ops.div (ops.ofInt h.Ntot) (ops.ofInt ((g.nx * g.ny : Nat) : Int))
      if ops.ge v1.binsum1 share && ops.lt (ops.sub v1.binsum1 lastbin) share then
        { v1 with
          end1 := n2
          bndval1 := ops.add (h.histo3dbinval n2 1)
            (ops.div
              (ops.mul (ops.sub (ops.log share) (ops.log v1.binsum1))
                (ops.sub (h.histo3dbinval n2 1) (h.histo3dbinval (n2 - 1) 1)))
              (ops.log lastbin)) }
      else scan1 ops h g fuel (n2 + 1) v1
    else v

/-- The scan of lines 466-479 for the boundary along the third axis. -/
def scan2 {F : Type} (ops : FloatOps F) (h : Histograms F) (g : Grid) :
    Nat → Int → WalkVars F → WalkVars F
  | 0, _, v => v
  | fuel + 1, n3, v =>
    if n3 < h.nbins3d then
      let lastbin := forRange v.start0 v.end0
        (fun n1 acc => forRange v.start1 v.end1
          (fun n2 acc1 =>
            ops.add acc1 (h.histo3d (n1 * (h.nbins3d * h.nbins3d) + n2 * h.nbins3d + n3))) acc)
        (ops.ofInt 0)
      let v1 : WalkVars F := { v with lastbin := lastbin, binsum2 := ops.add v.binsum2 lastbin }
      let share := ops.div (ops.ofInt h.Ntot) (ops.ofInt ((g.nx * g.ny * g.nz : Nat) : Int))
      if ops.ge v1.binsum2 share && ops.lt (ops.sub v1.binsum2 lastbin) share then
        { v1 with
          end2 := n3
          bndval2 := ops.add (h.histo3dbinval n3 2)
            (ops.div
              (ops.mul (ops.sub share v1.binsum2)
                (ops.sub (h.histo3dbinval n3 2) (h.histo3dbinval (n3 - 1) 2)))
              lastbin) }
      else scan2 ops h g fuel (n3 + 1) v1
    else v

/-- Lines 377-402: the faces of the grid take the limits of the simulation. -/
def outerFaces {F : Type} (xlim : Nat → Nat → F) (g : Grid) (dom : Nat → Nat → Nat → F) :
    Nat → Nat → Nat → F :=
  let d1 := forLoop g.ny (fun j d => forLoop g.nx (fun i d1 =>
    setBnd (setBnd d1 (g.task i j 0) g.iz 0 (xlim g.iz 0))
      (g.task i j (g.nz - 1)) g.iz 1 (xlim g.iz 1)) d) dom
  let d2 := forLoop g.nz (fun k d => forLoop g.nx (fun i d1 =>
    setBnd (setBnd d1 (g.task i 0 k) g.iy 0 (xlim g.iy 0))
      (g.task i (g.ny - 1) k) g.iy 1 (xlim g.iy 1)) d) d1
  forLoop g.nz (fun k d => forLoop g.ny (fun j d1 =>
    setBnd (setBnd d1 (g.task 0 j k) g.ix 0 (xlim g.ix 0))
      (g.task (g.nx - 1) j k) g.ix 1 (xlim g.ix 1)) d) d2

/-- The variables and the box table during the walk. -/
structure WalkState (F : Type) where
  vars : WalkVars F
  dom : Nat → Nat → Nat → F

/-- Body of the loop over `k`, lines 464-488. -/
def zRound {F : Type} (ops : FloatOps F) (h : Histograms F) (g : Grid) (i j k : Nat)
    (w : WalkState F) : WalkState F :=
  let v0 : WalkVars F := { w.vars with binsum2 := ops.ofInt 0 }
  let v1 := scan2 ops h g (h.nbins3d - v0.start2).toNat v0.start2 v0
  let d1 :=
    if k + 1 < g.nz then
      setBnd (setBnd w.dom (g.task i j k) g.iz 1 v1.bndval2) (g.task i j (k + 1)) g.iz 0 v1.bndval2
    else w.dom
  { vars := { v1 with start2 := v1.end2 + 1, binsum2 := ops.ofInt 0 }, dom := d1 }

/-- Body of the loop over `j`, lines 439-491. -/
def yRound {F : Type} (ops : FloatOps F) (h : Histograms F) (g : Grid) (i j : Nat)
    (w : WalkState F) : WalkState F :=
  let v0 : WalkVars F := { w.vars with binsum1 := ops.ofInt 0 }
  let v1 := scan1 ops h g (h.nbins3d - v0.start1).toNat v0.start1 v0
  let d1 :=
    if j + 1 < g.ny then
      forLoop g.nz (fun k d =>
        setBnd (setBnd d (g.task i j k) g.iy 1 v1.bndval1) (g.task i (j + 1) k) g.iy 0 v1.bndval1)
        w.dom
    else w.dom
  let w2 : WalkState F :=
    if 1 < g.nz then forLoop g.nz (fun k w1 => zRound ops h g i j k w1) { vars := v1, dom := d1 }
    else { vars := v1, dom := d1 }
  { vars := { w2.vars with start1 := w2.vars.end1 + 1, binsum1 := ops.ofInt 0 }, dom := w2.dom }

/-- Body of the loop over `i`, lines 407-494. -/
def xRound {F : Type} (ops : FloatOps F) (h : Histograms F) (g : Grid) (i : Nat)
    (w : WalkState F) : WalkState F :=
  let v0 : WalkVars F := { w.vars with binsum0 := ops.ofInt 0 }
  let v1 := scan0 ops h g (h.nbins3d - 1 - v0.start0).toNat v0.start0 v0
  let d1 :=
    if i + 1 < g.nx then
      forLoop g.ny (fun j d => forLoop g.nz (fun k d2 =>
        setBnd (setBnd d2 (g.task i j k) g.ix 1 v1.bndval0) (g.task (i + 1) j k) g.ix 0 v1.bndval0)
        d) w.dom
    else w.dom
  let w2 : WalkState F :=
    if 1 < g.ny then forLoop g.ny (fun j w1 => yRound ops h g i j w1) { vars := v1, dom := d1 }
    else { vars := v1, dom := d1 }
  { vars := { w2.vars with start0 := w2.vars.end0 + 1, binsum0 := ops.ofInt 0 }, dom := w2.dom }

/-- Line 375, `int ix=mpi_ideltax[0],iy=mpi_ideltax[1],iz=mpi_ideltax[2];`, and
the partition counts `mpi_nxsplit[ix]`, `mpi_nxsplit[iy]`, `mpi_nxsplit[iz]`. -/
def gridOf {F : Type} (st : MPIState F) : Grid :=
  { ix := st.mpi_ideltax 0, iy := st.mpi_ideltax 1, iz := st.mpi_ideltax 2
    nx := st.mpi_nxsplit (st.mpi_ideltax 0), ny := st.mpi_nxsplit (st.mpi_ideltax 1)
    nz := st.mpi_nxsplit (st.mpi_ideltax 2) }

/-- Lines 375-494: the grid is read from `mpi_ideltax` and `mpi_nxsplit`, the
faces are pinned, and the walk sets the inner boundaries. `junk` holds the
variables as declared; `start` is set to zero. -/
def boundaryWalk {F : Type} (ops : FloatOps F) (h : Histograms F) (junk : WalkVars F)
    (st : MPIState F) : MPIState F :=
  let g : Grid := gridOf st
  let w := forLoop g.nx (fun i w1 => xRound ops h g i w1)
    { vars := { junk with start0 := 0, start1 := 0, start2 := 0 }
      dom := outerFaces st.mpi_xlim g st.mpi_domain }
  { st with mpi_domain := w.dom }

/-- The array `mpi_ideltax` lists the three axes 0,1,2 in some order. -/
def AxisOrder (mpi_ideltax : Nat → Nat) : Prop :=
  mpi_ideltax 0 < 3 ∧ mpi_ideltax 1 < 3 ∧ mpi_ideltax 2 < 3 ∧
  mpi_ideltax 0 ≠ mpi_ideltax 1 ∧ mpi_ideltax 0 ≠ mpi_ideltax 2 ∧
  mpi_ideltax 1 ≠ mpi_ideltax 2

instance (f : Nat → Nat) : Decidable (AxisOrder f) := by
  unfold AxisOrder; infer_instance

/-- Three values as an array of length 3. -/
def arr3 (a b c : Nat) : Nat → Nat := fun j => if j = 0 then a else if j = 1 then b else c

/-- The file operations of reading the headers of files `0 .. n-1` in turn. -/
def headerOps : Nat → List FileOp
  | 0 => []
  | n + 1 => headerOps n ++ [FileOp.opened n, FileOp.headerRead n]

/-- Integer stand-in for the arithmetic, used to run the definitions on examples. -/
def intOps : FloatOps Int where
  ofInt := fun z => z
  add := fun a b => a + b
  sub := fun a b => a - b
  mul := fun a b => a * b
  div := fun a b => a / b
  log := fun a => a
  lt := fun a b => decide (a < b)
  ge := fun a b => decide (b ≤ a)
  milli := 0

/-- A state with every variable zero and no file operation. -/
def zeroState : MPIState Int where
  mpi_xlim := fun _ _ => 0
  mpi_domain := fun _ _ _ => 0
  mpi_nxsplit := fun _ => 0
  mpi_ideltax := fun _ => 0
  Nlocal := 0
  Nlocalbaryon0 := 0
  trace := []

/-- A header with the given six counts and box size 100. -/
def exampleHeader (n0 n1 n2 n3 n4 n5 : Nat) : gadget_header Int where
  npart := fun k =>
    if k = 0 then n0 else if k = 1 then n1 else if k = 2 then n2 else if k = 3 then n3
    else if k = 4 then n4 else if k = 5 then n5 else 0
  BoxSize := 100

/-- A file with the given six counts whose particle `n` of slot `k` sits at
`(k, n, 0)`. -/
def exampleFile (n0 n1 n2 n3 n4 n5 : Nat) : GadgetFile Int where
  header := exampleHeader n0 n1 n2 n3 n4 n5
  pos := fun k n => ((k : Int), (n : Int), 0)

/-- Collaborators for the examples: no byte swapping, rank 0 reads every file,
the owner of a point is the parity of its second coordinate. -/
def exampleEnv : Env Int where
  Endian := fun h => h
  LittleFloat := fun x => x
  MPIGetParticlesProcessor := fun _ y _ => (y % 2).toNat
  ireadtask := fun r => if r = 0 then 0 else -1
  MPISetFilesRead := fun _ _ => 1
  MPIInitialDomainDecomposition := fun st => st

/-- One when the test holds and the owner is rank `s`, else zero. -/
def ownedBy (c : Bool) (owner s : Nat) : Int := if c = true ∧ owner = s then 1 else 0

/-- The number of particles of file `f` whose type slot passes `test` and whose
owner is rank `s`; `Endian` corrects the header and `owner` is the owner lookup. -/
def fileCount {F : Type} (Endian : gadget_header F → gadget_header F)
    (owner : F → F → F → Nat) (test : Nat → Bool) (f : GadgetFile F) (s : Nat) : Int :=
  ∑ k in Finset.range NGTYPE, ∑ n in Finset.range ((Endian f.header).npart k),
    ownedBy (test k) (owner (f.pos k n).1 (f.pos k n).2.1 (f.pos k n).2.2) s

/-- The number of particles, over files `0 .. num_files-1` and the six type slots,
whose slot passes `test` and whose owner is rank `s`. -/
def ownedCount {F : Type} (Endian : gadget_header F → gadget_header F)
    (owner : F → F → F → Nat) (test : Nat → Bool) (num_files : Nat)
    (snap : Nat → GadgetFile F) (s : Nat) : Int :=
  ∑ i in Finset.range num_files, fileCount Endian owner test (snap i) s

/-- The total of the headers' `npart` entries over the type slots passing `test`. -/
def headerTotal {F : Type} (Endian : gadget_header F → gadget_header F) (test : Nat → Bool)
    (num_files : Nat) (snap : Nat → GadgetFile F) : Int :=
  ∑ i in Finset.range num_files, ∑ k in Finset.range NGTYPE,
    if test k = true then (((Endian (snap i).header).npart k : Nat) : Int) else 0

/-- Rank `r` reads file `i` in the assignment pass: lines 541 and 543. -/
def ReadsFile {F : Type} (env : Env F) (r i : Nat) : Prop :=
  0 ≤ env.ireadtask r ∧ env.MPISetFilesRead r i ≠ 0

instance {F : Type} (env : Env F) (r i : Nat) : Decidable (ReadsFile env r i) := by
  unfold ReadsFile; infer_instance

/-- Each of the files `0 .. num_files-1` is read by exactly one of the ranks
`0 .. NProcs-1`. -/
def EachFileReadOnce {F : Type} (env : Env F) (num_files NProcs : Nat) : Prop :=
  ∀ i, i < num_files →
    ((Finset.range NProcs).filter (fun r => ReadsFile env r i)).card = 1

instance {F : Type} (env : Env F) (num_files NProcs : Nat) :
    Decidable (EachFileReadOnce env num_files NProcs) := by
  unfold EachFileReadOnce; infer_instance

/-- Gas, star or black hole: the type slots 0, 4 and 5. -/
def isBaryonType (k : Nat) : Bool := decide (k = GGASTYPE ∨ k = GSTARTYPE ∨ k = GBHTYPE)

/-- Collaborators for an example in which rank 1 is the only reader. -/
def readerOneEnv : Env Int where
  Endian := fun h => h
  LittleFloat := fun x => x
  MPIGetParticlesProcessor := fun _ y _ => (y % 2).toNat
  ireadtask := fun r => if r = 1 then 0 else -1
  MPISetFilesRead := fun _ _ => 1
  MPIInitialDomainDecomposition := fun st => st

/-- Histograms for the examples. -/
def exampleHistograms : Histograms Int where
  Ntot := 100
  nbins3d := 4
  histo1d0 := fun n => 25 + n
  histo2d := fun n => 6 + n
  histo3d := fun _ => 2
  histo3dbinval := fun n m => 10 * n + (m : Int)

/-- Walk variables for the examples. -/
def exampleVars : WalkVars Int where
  start0 := 7
  start1 := 7
  start2 := 7
  end0 := 7
  end1 := 7
  end2 := 7
  bndval0 := -1
  bndval1 := -2
  bndval2 := -3
  binsum0 := 0
  binsum1 := 0
  binsum2 := 0
  lastbin := 0

/-- A state for the examples: axis priority 2, 0, 1, extent `(0, 100)` on each
axis, and a box table whose entries are all different. -/
def exampleState : MPIState Int where
  mpi_xlim := fun _ s => if s = 0 then 0 else 100
  mpi_domain := fun t a s => 1000 + 100 * (t : Int) + 10 * (a : Int) + (s : Int)
  mpi_nxsplit := fun _ => 0
  mpi_ideltax := arr3 2 0 1
  Nlocal := 0
  Nlocalbaryon0 := 0
  trace := []

/-! ### The second streaming pass of the disabled block (lines 332-370) -/

/-- Component `ctemp[a]` of a position. -/
def component {F : Type} (c : F × F × F) (a : Nat) : F :=
  if a = 0 then c.1 else if a = 1 then c.2.1 else c.2.2

/-- Lines 339-344: the search for the coarse bin of coordinate `x` along the axis
of priority `m`, from bin `j`; `cur` is the value `ibin[m]` keeps when no bin is
found and `fuel` bounds the number of rounds. -/
def binSearch {F : Type} (ops : FloatOps F) (h : Histograms F) (m : Nat) (x : F) :
    Nat → Int → Int → Int
  | 0, _, cur => cur
  | fuel + 1, j, cur =>
    if j < h.nbins3d then
      if ops.ge x (h.histo3dbinval j m) && ops.lt x (h.histo3dbinval (j + 1) m) then j
      else binSearch ops h m x fuel (j + 1) cur
    else cur

/-- Lines 347, 353, 359, 365: the index of the cell of `histo3d` that the fill
step increments, `ibin[0]*nbins3d2+ibin[1]+nbins3d+ibin[2]` with
`nbins3d2=nbins3d*nbins3d`. -/
def fillIndex3d (nbins3d : Int) (ibin : Nat → Int) : Int :=
  ibin 0 * (nbins3d * nbins3d) + ibin 1 + nbins3d + ibin 2

/-- Line 468: the index of the cell of `histo3d` that the walk reads for the bin
triple `(n1, n2, n3)`, `n1*nbins3d2+n2*nbins3d+n3`. -/
def readIndex3d (nbins3d n1 n2 n3 : Int) : Int :=
  n1 * (nbins3d * nbins3d) + n2 * nbins3d + n3

/-- The statement `a[i]++` on an array of `Double_t`. -/
def incrF {F : Type} (ops : FloatOps F) (a : Int → F) (i : Int) : Int → F :=
  fun j => if j = i then ops.add (a j) (ops.ofInt 1) else a j

/-- The histograms and the local array `ibin` during the second pass. -/
structure FillState (F : Type) where
  h : Histograms F
  ibin : Nat → Int

/-- Lines 347-349: the three increments of the fill step. -/
def fillCells {F : Type} (ops : FloatOps F) (fl : FillState F) : FillState F :=
  { fl with
    h :=
      { fl.h with
        histo3d := incrF ops fl.h.histo3d (fillIndex3d fl.h.nbins3d fl.ibin)
        histo2d := incrF ops fl.h.histo2d (fl.ibin 0 * fl.h.nbins3d + fl.ibin 1)
        histo1d0 := incrF ops fl.h.histo1d0 (fl.ibin 0) } }

/-- Body of the particle loop of the second pass, lines 336-368, for the stored
position `pos` of a particle of type `k`: the position is corrected with
`LittleFloat`, its bin along each axis is searched, and the cells are
incremented when the type test of this pass holds. -/
def histoFillParticle {F : Type} (ops : FloatOps F) (env : Env F) (opt : Options)
    (mpi_ideltax : Nat → Nat) (pos : F × F × F) (k : Nat) (fl : FillState F) : FillState F :=
  let ctemp : F × F × F :=
    (env.LittleFloat pos.1, env.LittleFloat pos.2.1, env.LittleFloat pos.2.2)
  let ibin := forLoop 3 (fun m ib =>
    Function.update ib m
      (binSearch ops fl.h m (component ctemp (mpi_ideltax m)) fl.h.nbins3d.toNat 0 (ib m)))
    fl.ibin
  let fl1 : FillState F := { fl with ibin := ibin }
  if countsInHisto3d opt.partsearchtype k then fillCells ops fl1 else fl1

/-- Lines 332-370 for one file: the loops over the type slots and the particles. -/
def histoFillFile {F : Type} (ops : FloatOps F) (env : Env F) (opt : Options)
    (mpi_ideltax : Nat → Nat) (header : gadget_header F) (f : GadgetFile F)
    (fl : FillState F) : FillState F :=
  forLoop 6 (fun k fl1 =>
    forLoop (header.npart k) (fun n fl2 =>
      histoFillParticle ops env opt mpi_ideltax (f.pos k n) k fl2) fl1) fl

/-- The owner of the position corrected with `LittleFloat`. -/
def correctedOwner {F : Type} (env : Env F) (x y z : F) : Nat :=
  env.MPIGetParticlesProcessor (env.LittleFloat x) (env.LittleFloat y) (env.LittleFloat z)

/-- Collaborators for an example on a host whose byte order differs from the
file: the correction of a float changes it (here it adds one), rank 0 reads
every file, the owner of a point is the parity of its second coordinate. -/
def swappingEnv : Env Int where
  Endian := fun h => h
  LittleFloat := fun x => x + 1
  MPIGetParticlesProcessor := fun _ y _ => (y % 2).toNat
  ireadtask := fun r => if r = 0 then 0 else -1
  MPISetFilesRead := fun _ _ => 1
  MPIInitialDomainDecomposition := fun st => st

/-- The exact integer part of the base-2 logarithm by repeated halving; `fuel`
bounds the halvings. -/
def log2Trunc : Nat → Nat → Nat
  | 0, _ => 0
  | fuel + 1, n => if n < 2 then 0 else log2Trunc fuel (n / 2) + 1

/-- An example of `floatLog2`: a library for which line 262 yields the exact
integer part of the base-2 logarithm. -/
def exactLog2 (n : Nat) : Int := (log2Trunc n n : Nat)

/-- Three values as the array `ibin`. -/
def ibin3 (a b c : Int) : Nat → Int := fun m => if m = 0 then a else if m = 1 then b else c

/-! ## Theorems -/

/-! ### The split counts -/

theorem log2Trunc_pow (fuel k : Nat) (h : k ≤ fuel) : log2Trunc fuel (2 ^ k) = k := by
  induction fuel generalizing k with
  | zero =>
    have : k = 0 := by omega
    subst this; rfl
  | succ fuel ih =>
    cases k with
    | zero => simp [log2Trunc]
    | succ k =>
      have h2 : ¬ (2 ^ (k + 1) < 2) := by
        have : 1 ≤ 2 ^ k := Nat.one_le_two_pow
        rw [pow_succ]; omega
      have h3 : 2 ^ (k + 1) / 2 = 2 ^ k := by
        rw [pow_succ]; simp
      simp only [log2Trunc, h2, if_false, h3]
      rw [ih k (by omega)]

theorem log2Trunc_eq_log (fuel n : Nat) (h : n ≤ fuel) : log2Trunc fuel n = Nat.log 2 n := by
  induction fuel generalizing n with
  | zero =>
    have : n = 0 := by omega
    subst this; simp [log2Trunc]
  | succ fuel ih =>
    by_cases hn : n < 2
    · simp only [log2Trunc, hn, if_true]
      exact (Nat.log_of_lt hn).symm
    · simp only [log2Trunc, hn, if_false]
      rw [ih (n / 2) (by omega), @Nat.log_of_one_lt_of_le 2 n (by decide) (by omega)]

/-- The example `exactLog2` is the integer part of the base-2 logarithm. -/
theorem exactLog2_eq_log (n : Nat) : exactLog2 n = (Nat.log 2 n : Nat) := by
  unfold exactLog2
  rw [log2Trunc_eq_log n n (Nat.le_refl _)]

theorem exactLog2_pow (k : Nat) : exactLog2 (2 ^ k) = (k : Nat) := by
  unfold exactLog2
  rw [log2Trunc_pow (2 ^ k) k (Nat.le_of_lt (Nat.lt_two_pow k))]

/-- An axis order takes each of the values 0, 1, 2. -/
theorem AxisOrder.cases {f : Nat → Nat} (hf : AxisOrder f) :
    (f 0 = 0 ∧ f 1 = 1 ∧ f 2 = 2) ∨ (f 0 = 0 ∧ f 1 = 2 ∧ f 2 = 1) ∨
    (f 0 = 1 ∧ f 1 = 0 ∧ f 2 = 2) ∨ (f 0 = 1 ∧ f 1 = 2 ∧ f 2 = 0) ∨
    (f 0 = 2 ∧ f 1 = 0 ∧ f 2 = 1) ∨ (f 0 = 2 ∧ f 1 = 1 ∧ f 2 = 0) := by
  obtain ⟨h0, h1, h2, h01, h02, h12⟩ := hf
  omega

theorem countsInNtot_iff (pst : TypeFilter) (j : Nat) :
    countsInNtot pst j = true ↔ pst = PSTALL ∨ (pst = PSTDARK ∧ j ≠ 0) := by
  by_cases h0 : j = 0 <;> by_cases h4 : j = 4 <;> cases pst <;>
    simp [countsInNtot, cNot, GASTYPE, STARTYPE, h0, h4]

theorem countsInHisto_eq (pst : TypeFilter) (k : Nat) :
    countsInHisto1d pst k = countsInNtot pst k ∧ countsInHisto3d pst k = countsInNtot pst k :=
  ⟨rfl, rfl⟩

theorem countsInAssignment_iff (opt : Options) (k : Nat) :
    countsInAssignment opt k = true ↔
      opt.partsearchtype = PSTALL ∨ (opt.partsearchtype = PSTDARK ∧ k ≠ 0 ∧ k ≠ 4 ∧ k ≠ 5) ∨
      (opt.partsearchtype = PSTSTAR ∧ k = 4) ∨ (opt.partsearchtype = PSTGAS ∧ k = 0) := by
  obtain ⟨nf, pst, b⟩ := opt
  by_cases h0 : k = 0 <;> by_cases h4 : k = 4 <;> by_cases h5 : k = 5 <;>
    by_cases hb : b = 0 <;> cases pst <;>
    simp [countsInAssignment, assignmentAction, GGASTYPE, GSTARTYPE, GBHTYPE, GASTYPE, STARTYPE,
      h0, h4, h5, hb]

theorem countsAsBaryon_iff (opt : Options) (k : Nat) :
    countsAsBaryon opt k = true ↔
      opt.partsearchtype = PSTDARK ∧ opt.iBaryonSearch ≠ 0 ∧ (k = 0 ∨ k = 4 ∨ k = 5) := by
  obtain ⟨nf, pst, b⟩ := opt
  by_cases h0 : k = 0 <;> by_cases h4 : k = 4 <;> by_cases h5 : k = 5 <;>
    by_cases hb : b = 0 <;> cases pst <;>
    simp [countsAsBaryon, assignmentAction, GGASTYPE, GSTARTYPE, GBHTYPE, GASTYPE, STARTYPE,
      h0, h4, h5, hb]

theorem headerOps_noPosRead (n : Nat) : ∀ e ∈ headerOps n, e.isPosRead = false := by
  induction n with
  | zero => intro e he; simp [headerOps] at he
  | succ n ih =>
    intro e he
    simp only [headerOps, List.mem_append, List.mem_cons, List.mem_singleton,
      List.not_mem_nil, or_false] at he
    rcases he with he | rfl | rfl
    · exact ih e he
    · rfl
    · rfl

/-- When files `0 .. n-1` open, the header loop ends normally, holds the
corrected header of each file, and has only opened files and read headers. -/
theorem openHeaders_ok {F : Type} (env : Env F) (fs : Nat → Option (GadgetFile F))
    (loc0 : ExtentLocals F) (n : Nat) (hopen : ∀ i, i < n → (fs i).isSome = true) :
    ∃ loc, forLoopE n (openHeader env fs) loc0 = Except.ok loc ∧
      (∀ i f, i < n → fs i = some f → loc.header i = env.Endian f.header) ∧
      loc.trace = loc0.trace ++ headerOps n := by
  induction n with
  | zero => exact ⟨loc0, rfl, fun i f hi => absurd hi (Nat.not_lt_zero i), by simp [headerOps]⟩
  | succ n ih =>
    obtain ⟨loc, hloc, hhdr, htr⟩ := ih (fun i hi => hopen i (Nat.lt_succ_of_lt hi))
    obtain ⟨fn, hfn⟩ := Option.isSome_iff_exists.mp (hopen n (Nat.lt_succ_self n))
    refine ⟨{ header := Function.update loc.header n (env.Endian fn.header),
              trace := loc.trace ++ [FileOp.opened n, FileOp.headerRead n] }, ?_, ?_, ?_⟩
    · simp only [forLoopE, hloc, openHeader, hfn]
    · intro i f hi hf
      by_cases hin : i = n
      · subst hin
        rw [hfn] at hf
        cases hf
        simp
      · simp only [Function.update_noteq hin]
        exact hhdr i f (by omega) hf
    · simp only [htr, headerOps, List.append_assoc]

/-- When some file does not open, the header loop leaves with `exit(0)`. -/
theorem openHeaders_fail {F : Type} (env : Env F) (fs : Nat → Option (GadgetFile F))
    (loc0 : ExtentLocals F) (n i : Nat) (hi : i < n) (hfail : fs i = none) :
    ∃ e, forLoopE n (openHeader env fs) loc0 = Except.error e := by
  induction n with
  | zero => exact absurd hi (Nat.not_lt_zero i)
  | succ n ih =>
    simp only [forLoopE]
    cases hres : forLoopE n (openHeader env fs) loc0 with
    | error e => exact ⟨e, rfl⟩
    | ok loc =>
      by_cases hin : i = n
      · subst hin
        exact ⟨Fatal.cantOpenFile i, by simp [openHeader, hfail]⟩
      · obtain ⟨e, he⟩ := ih (by omega)
        rw [hres] at he
        cases he

theorem setBoxLimits_apply {F : Type} (ops : FloatOps F) (header : Nat → gadget_header F)
    (xlim : Nat → Nat → F) (m : Nat) (hm : m < 3) :
    setBoxLimits ops header xlim m 0 = ops.ofInt 0 ∧
    setBoxLimits ops header xlim m 1 = (header 0).BoxSize := by
  have h : m = 0 ∨ m = 1 ∨ m = 2 := by omega
  rcases h with rfl | rfl | rfl <;> simp [setBoxLimits, forLoop, set2]

theorem soleDomain_apply {F : Type} (t : Nat) (st : MPIState F) (i s : Nat) (hi : i < 3)
    (hs : s < 2) : (soleDomain t st).mpi_domain t i s = st.mpi_xlim i s := by
  have h : i = 0 ∨ i = 1 ∨ i = 2 := by omega
  have h2 : s = 0 ∨ s = 1 := by omega
  rcases h with rfl | rfl | rfl <;> rcases h2 with rfl | rfl <;>
    simp [soleDomain, forLoop, setBnd]

/-- C3. Without `MPIEXPANDLIM`, with at least one file and every file opening,
`MPIDomainExtentGadget` on rank 0 ends normally and leaves
`mpi_xlim[m] = (0, BoxSize)` on each axis `m`, `BoxSize` being the corrected
header field of file 0. -/
theorem MPIDomainExtentGadget_box_extent {F : Type} (ops : FloatOps F) (env : Env F)
    (opt : Options) (fs : Nat → Option (GadgetFile F)) (junk : Nat → gadget_header F)
    (NProcs : Nat) (st : MPIState F) (f0 : GadgetFile F)
    (hn : 1 ≤ opt.num_files) (hopen : ∀ i, i < opt.num_files → (fs i).isSome = true)
    (h0 : fs 0 = some f0) :
    ∃ st1, MPIDomainExtentGadget ops env false opt fs junk 0 NProcs st = Except.ok st1 ∧
      ∀ m, m < 3 → st1.mpi_xlim m 0 = ops.ofInt 0 ∧
        st1.mpi_xlim m 1 = (env.Endian f0.header).BoxSize := by
  obtain ⟨loc, hloc, hhdr, -⟩ :=
    openHeaders_ok env fs { header := junk, trace := st.trace } opt.num_files hopen
  have hb : (loc.header 0).BoxSize = (env.Endian f0.header).BoxSize := by
    rw [hhdr 0 f0 (by omega) h0]
  by_cases hP : NProcs = 1
  · refine ⟨_, by simp only [MPIDomainExtentGadget, extentCoordinator, hloc, if_true]; rfl, ?_⟩
    intro m hm
    simp only [hP, if_true, soleDomain, Bool.false_eq_true, if_false]
    rw [← hb]
    exact setBoxLimits_apply ops loc.header st.mpi_xlim m hm
  · refine ⟨_, by simp only [MPIDomainExtentGadget, extentCoordinator, hloc, if_true]; rfl, ?_⟩
    intro m hm
    simp only [hP, if_false, Bool.false_eq_true]
    rw [← hb]
    exact setBoxLimits_apply ops loc.header st.mpi_xlim m hm

theorem MPIDomainExtentGadget_box_extent_witness :
    1 ≤ 2 ∧
    (∀ i, i < 2 → (Option.isSome (some (exampleFile 1 2 0 0 1 0))) = true) ∧
    ∃ st1, MPIDomainExtentGadget intOps exampleEnv false
        { num_files := 2, partsearchtype := PSTALL, iBaryonSearch := 0 }
        (fun _ => some (exampleFile 1 2 0 0 1 0)) (fun _ => exampleHeader 9 9 9 9 9 9) 0 4
        zeroState = Except.ok st1 ∧
      ∀ m, m < 3 → st1.mpi_xlim m 0 = intOps.ofInt 0 ∧
        st1.mpi_xlim m 1 = (exampleEnv.Endian (exampleFile 1 2 0 0 1 0).header).BoxSize :=
  ⟨by decide, fun _ _ => rfl,
    MPIDomainExtentGadget_box_extent intOps exampleEnv
      { num_files := 2, partsearchtype := PSTALL, iBaryonSearch := 0 }
      (fun _ => some (exampleFile 1 2 0 0 1 0)) (fun _ => exampleHeader 9 9 9 9 9 9) 4
      zeroState (exampleFile 1 2 0 0 1 0) (by decide) (fun _ _ => rfl) rfl⟩

/-- C6. With `NProcs = 1` and `ThisTask = 0`, when the files open,
`MPIDomainExtentGadget` ends normally with `mpi_domain[0].bnd[i][0] = mpi_xlim[i][0]`
and `mpi_domain[0].bnd[i][1] = mpi_xlim[i][1]` for `i = 0,1,2`; the only file
operations of the call are opening each file and reading its header, so no
position record is read for a histogram. -/
theorem MPIDomainExtentGadget_sole_rank {F : Type} (ops : FloatOps F) (env : Env F)
    (MPIEXPANDLIM : Bool) (opt : Options) (fs : Nat → Option (GadgetFile F))
    (junk : Nat → gadget_header F) (st : MPIState F)
    (hopen : ∀ i, i < opt.num_files → (fs i).isSome = true) :
    ∃ st1, MPIDomainExtentGadget ops env MPIEXPANDLIM opt fs junk 0 1 st = Except.ok st1 ∧
      (∀ i, i < 3 → st1.mpi_domain 0 i 0 = st1.mpi_xlim i 0 ∧
        st1.mpi_domain 0 i 1 = st1.mpi_xlim i 1) ∧
      st1.trace = st.trace ++ headerOps opt.num_files ∧
      (∀ e ∈ headerOps opt.num_files, e.isPosRead = false) := by
  obtain ⟨loc, hloc, -, htr⟩ :=
    openHeaders_ok env fs { header := junk, trace := st.trace } opt.num_files hopen
  refine ⟨_, by simp only [MPIDomainExtentGadget, extentCoordinator, hloc, if_true]; rfl,
    ?_, ?_, headerOps_noPosRead _⟩
  · intro i hi
    exact ⟨soleDomain_apply 0 _ i 0 hi (by decide), soleDomain_apply 0 _ i 1 hi (by decide)⟩
  · simpa [soleDomain] using htr

theorem MPIDomainExtentGadget_sole_rank_witness :
    (∀ i, i < 2 → (Option.isSome (some (exampleFile 1 2 0 0 1 0))) = true) ∧
    ∃ st1, MPIDomainExtentGadget intOps exampleEnv false
        { num_files := 2, partsearchtype := PSTALL, iBaryonSearch := 0 }
        (fun _ => some (exampleFile 1 2 0 0 1 0)) (fun _ => exampleHeader 9 9 9 9 9 9) 0 1
        zeroState = Except.ok st1 ∧
      (∀ i, i < 3 → st1.mpi_domain 0 i 0 = st1.mpi_xlim i 0 ∧
        st1.mpi_domain 0 i 1 = st1.mpi_xlim i 1) ∧
      st1.trace = zeroState.trace ++ headerOps 2 ∧
      (∀ e ∈ headerOps 2, e.isPosRead = false) :=
  ⟨fun _ _ => rfl,
    MPIDomainExtentGadget_sole_rank intOps exampleEnv false
      { num_files := 2, partsearchtype := PSTALL, iBaryonSearch := 0 }
      (fun _ => some (exampleFile 1 2 0 0 1 0)) (fun _ => exampleHeader 9 9 9 9 9 9)
      zeroState (fun _ _ => rfl)⟩

/-! ### The assignment pass -/

/-- Effect of one particle read from an open file. -/
theorem countParticle_some {F : Type} (env : Env F) (opt : Options) (f : GadgetFile F)
    (i k n : Nat) (rs : ReadState F) :
    (countParticle env opt (some f) i k n rs).header = rs.header ∧
    (∀ s, (countParticle env opt (some f) i k n rs).Nbuf s = rs.Nbuf s +
      ownedBy (countsInAssignment opt k)
        (env.MPIGetParticlesProcessor (f.pos k n).1 (f.pos k n).2.1 (f.pos k n).2.2) s) ∧
    (∀ s, (countParticle env opt (some f) i k n rs).Nbaryonbuf s = rs.Nbaryonbuf s +
      ownedBy (countsAsBaryon opt k)
        (env.MPIGetParticlesProcessor (f.pos k n).1 (f.pos k n).2.1 (f.pos k n).2.2) s) := by
  unfold countParticle countsInAssignment countsAsBaryon ownedBy
  cases h : assignmentAction opt k <;> simp only [h] <;>
    refine ⟨trivial, fun s => ?_, fun s => ?_⟩ <;> simp [incr] <;> split <;> omega

/-- Effect of the particle loop of one type slot on an open file. -/
theorem particleLoop_some {F : Type} (env : Env F) (opt : Options) (f : GadgetFile F)
    (i k m : Nat) (rs : ReadState F) :
    (forLoop m (fun n s1 => countParticle env opt (some f) i k n s1) rs).header = rs.header ∧
    (∀ s, (forLoop m (fun n s1 => countParticle env opt (some f) i k n s1) rs).Nbuf s =
      rs.Nbuf s + ∑ n in Finset.range m, ownedBy (countsInAssignment opt k)
        (env.MPIGetParticlesProcessor (f.pos k n).1 (f.pos k n).2.1 (f.pos k n).2.2) s) ∧
    (∀ s, (forLoop m (fun n s1 => countParticle env opt (some f) i k n s1) rs).Nbaryonbuf s =
      rs.Nbaryonbuf s + ∑ n in Finset.range m, ownedBy (countsAsBaryon opt k)
        (env.MPIGetParticlesProcessor (f.pos k n).1 (f.pos k n).2.1 (f.pos k n).2.2) s) := by
  induction m with
  | zero => simp [forLoop]
  | succ m ih =>
    obtain ⟨ih1, ih2, ih3⟩ := ih
    obtain ⟨c1, c2, c3⟩ := countParticle_some env opt f i k m
      (forLoop m (fun n s1 => countParticle env opt (some f) i k n s1) rs)
    simp only [forLoop]
    refine ⟨c1.trans ih1, fun s => ?_, fun s => ?_⟩
    · rw [c2 s, ih2 s, Finset.sum_range_succ, add_assoc]
    · rw [c3 s, ih3 s, Finset.sum_range_succ, add_assoc]

/-- Effect of the loop over the first `K` type slots on an open file. -/
theorem typeLoop_some {F : Type} (env : Env F) (opt : Options) (f : GadgetFile F)
    (i K : Nat) (rs : ReadState F) :
    (forLoop K (fun k s => forLoop ((s.header i).npart k)
        (fun n s1 => countParticle env opt (some f) i k n s1) s) rs).header = rs.header ∧
    (∀ s, (forLoop K (fun k s => forLoop ((s.header i).npart k)
        (fun n s1 => countParticle env opt (some f) i k n s1) s) rs).Nbuf s =
      rs.Nbuf s + ∑ k in Finset.range K, ∑ n in Finset.range ((rs.header i).npart k),
        ownedBy (countsInAssignment opt k)
          (env.MPIGetParticlesProcessor (f.pos k n).1 (f.pos k n).2.1 (f.pos k n).2.2) s) ∧
    (∀ s, (forLoop K (fun k s => forLoop ((s.header i).npart k)
        (fun n s1 => countParticle env opt (some f) i k n s1) s) rs).Nbaryonbuf s =
      rs.Nbaryonbuf s + ∑ k in Finset.range K, ∑ n in Finset.range ((rs.header i).npart k),
        ownedBy (countsAsBaryon opt k)
          (env.MPIGetParticlesProcessor (f.pos k n).1 (f.pos k n).2.1 (f.pos k n).2.2) s) := by
  induction K with
  | zero => simp [forLoop]
  | succ K ih =>
    obtain ⟨ih1, ih2, ih3⟩ := ih
    simp only [forLoop]
    generalize forLoop K (fun k s => forLoop ((s.header i).npart k)
        (fun n s1 => countParticle env opt (some f) i k n s1) s) rs = mid at ih1 ih2 ih3
    obtain ⟨c1, c2, c3⟩ := particleLoop_some env opt f i K ((mid.header i).npart K) mid
    refine ⟨c1.trans ih1, fun s => ?_, fun s => ?_⟩
    · rw [c2 s, ih2 s, Finset.sum_range_succ, add_assoc, ih1]
    · rw [c3 s, ih3 s, Finset.sum_range_succ, add_assoc, ih1]

/-- Effect of reading a file that opens: both counter arrays grow by the
particles of the file they count. -/
theorem readFile_some {F : Type} (env : Env F) (opt : Options)
    (fs : Nat → Option (GadgetFile F)) (i : Nat) (f : GadgetFile F) (hf : fs i = some f)
    (rs : ReadState F) :
    (∀ s, (readFile env opt fs i rs).Nbuf s = rs.Nbuf s +
      fileCount env.Endian env.MPIGetParticlesProcessor (countsInAssignment opt) f s) ∧
    (∀ s, (readFile env opt fs i rs).Nbaryonbuf s = rs.Nbaryonbuf s +
      fileCount env.Endian env.MPIGetParticlesProcessor (countsAsBaryon opt) f s) := by
  unfold readFile fileCount
  simp only [hf]
  constructor
  · intro s
    rw [(typeLoop_some env opt f i NGTYPE _).2.1 s]
    simp
  · intro s
    rw [(typeLoop_some env opt f i NGTYPE _).2.2 s]
    simp

/-- The file loop of one rank over the first `n` files, when they open. -/
theorem fileLoop_counts {F : Type} (env : Env F) (opt : Options)
    (fs : Nat → Option (GadgetFile F)) (snap : Nat → GadgetFile F) (r n : Nat)
    (hfs : ∀ i, i < n → fs i = some (snap i)) (rs : ReadState F) :
    (∀ s, (forLoop n (fun i rs1 =>
        if env.MPISetFilesRead r i ≠ 0 then readFile env opt fs i rs1 else rs1) rs).Nbuf s =
      rs.Nbuf s + ∑ i in Finset.range n, if env.MPISetFilesRead r i ≠ 0 then
        fileCount env.Endian env.MPIGetParticlesProcessor (countsInAssignment opt) (snap i) s
        else 0) ∧
    (∀ s, (forLoop n (fun i rs1 =>
        if env.MPISetFilesRead r i ≠ 0 then readFile env opt fs i rs1 else rs1) rs).Nbaryonbuf s =
      rs.Nbaryonbuf s + ∑ i in Finset.range n, if env.MPISetFilesRead r i ≠ 0 then
        fileCount env.Endian env.MPIGetParticlesProcessor (countsAsBaryon opt) (snap i) s
        else 0) := by
  induction n with
  | zero => simp [forLoop]
  | succ n ih =>
    obtain ⟨ih1, ih2⟩ := ih (fun i hi => hfs i (Nat.lt_succ_of_lt hi))
    simp only [forLoop]
    generalize forLoop n (fun i rs1 =>
        if env.MPISetFilesRead r i ≠ 0 then readFile env opt fs i rs1 else rs1) rs = mid
      at ih1 ih2
    by_cases hr : env.MPISetFilesRead r n ≠ 0
    · obtain ⟨c1, c2⟩ := readFile_some env opt fs n (snap n) (hfs n (Nat.lt_succ_self n)) mid
      refine ⟨fun s => ?_, fun s => ?_⟩
      · rw [if_pos hr, c1 s, ih1 s, Finset.sum_range_succ, add_assoc, if_pos hr]
      · rw [if_pos hr, c2 s, ih2 s, Finset.sum_range_succ, add_assoc, if_pos hr]
    · refine ⟨fun s => ?_, fun s => ?_⟩
      · rw [if_neg hr, ih1 s, Finset.sum_range_succ, if_neg hr, add_zero]
      · rw [if_neg hr, ih2 s, Finset.sum_range_succ, if_neg hr, add_zero]

/-- The counters of one rank before the reduction, when its files open. -/
theorem localCounts_eq {F : Type} (env : Env F) (opt : Options)
    (fs : Nat → Option (GadgetFile F)) (snap : Nat → GadgetFile F)
    (junkH : Nat → gadget_header F) (junkC : F × F × F) (r : Nat)
    (hfs : ∀ i, i < opt.num_files → fs i = some (snap i)) :
    (∀ s, (localCounts env opt fs junkH junkC r).Nbuf s =
      ∑ i in Finset.range opt.num_files, if ReadsFile env r i then
        fileCount env.Endian env.MPIGetParticlesProcessor (countsInAssignment opt) (snap i) s
        else 0) ∧
    (∀ s, (localCounts env opt fs junkH junkC r).Nbaryonbuf s =
      ∑ i in Finset.range opt.num_files, if ReadsFile env r i then
        fileCount env.Endian env.MPIGetParticlesProcessor (countsAsBaryon opt) (snap i) s
        else 0) := by
  unfold localCounts ReadsFile
  by_cases hr : 0 ≤ env.ireadtask r
  · simp only [hr, if_true, true_and]
    obtain ⟨c1, c2⟩ := fileLoop_counts env opt fs snap r opt.num_files hfs
      { Nbuf := fun _ => 0, Nbaryonbuf := fun _ => 0, header := junkH, ctemp := junkC, trace := [] }
    exact ⟨fun s => by rw [c1 s]; simp, fun s => by rw [c2 s]; simp⟩
  · simp [hr]

/-- Summing over the ranks what each rank reads gives every file once. -/
theorem sum_over_readers {F : Type} (env : Env F) (num_files NProcs : Nat)
    (hread : EachFileReadOnce env num_files NProcs) (c : Nat → Int) :
    ∑ r in Finset.range NProcs, ∑ i in Finset.range num_files,
        (if ReadsFile env r i then c i else 0) = ∑ i in Finset.range num_files, c i := by
  rw [Finset.sum_comm]
  refine Finset.sum_congr rfl (fun i hi => ?_)
  rw [← Finset.sum_filter, Finset.sum_const, hread i (Finset.mem_range.mp hi), one_smul]

/-- The reduced arrays, when every rank finds the files `snap` and each file is
read by exactly one rank. -/
theorem reduce_counts {F : Type} (env : Env F) (opt : Options)
    (fs : Nat → Nat → Option (GadgetFile F)) (snap : Nat → GadgetFile F)
    (junkH : Nat → Nat → gadget_header F) (junkC : Nat → F × F × F) (NProcs : Nat)
    (hfs : ∀ r i, r < NProcs → i < opt.num_files → fs r i = some (snap i))
    (hread : EachFileReadOnce env opt.num_files NProcs) (s : Nat) :
    MPI_Allreduce_SUM NProcs
        (fun r => (localCounts env opt (fs r) (junkH r) (junkC r) r).Nbuf) s =
      ownedCount env.Endian env.MPIGetParticlesProcessor (countsInAssignment opt)
        opt.num_files snap s ∧
    MPI_Allreduce_SUM NProcs
        (fun r => (localCounts env opt (fs r) (junkH r) (junkC r) r).Nbaryonbuf) s =
      ownedCount env.Endian env.MPIGetParticlesProcessor (countsAsBaryon opt)
        opt.num_files snap s := by
  unfold MPI_Allreduce_SUM ownedCount
  constructor
  · rw [← sum_over_readers env opt.num_files NProcs hread]
    refine Finset.sum_congr rfl (fun r hr => ?_)
    exact (localCounts_eq env opt (fs r) snap (junkH r) (junkC r) r
      (fun i hi => hfs r i (Finset.mem_range.mp hr) hi)).1 s
  · rw [← sum_over_readers env opt.num_files NProcs hread]
    refine Finset.sum_congr rfl (fun r hr => ?_)
    exact (localCounts_eq env opt (fs r) snap (junkH r) (junkC r) r
      (fun i hi => hfs r i (Finset.mem_range.mp hr) hi)).2 s

/-- The coordinator's extent step ends normally when its files open. -/
theorem MPIDomainExtentGadget_ok {F : Type} (ops : FloatOps F) (env : Env F)
    (MPIEXPANDLIM : Bool) (opt : Options) (fs : Nat → Option (GadgetFile F))
    (junk : Nat → gadget_header F) (NProcs : Nat) (st : MPIState F)
    (hopen : ∀ i, i < opt.num_files → (fs i).isSome = true) :
    ∃ st1, MPIDomainExtentGadget ops env MPIEXPANDLIM opt fs junk 0 NProcs st = Except.ok st1 := by
  obtain ⟨loc, hloc, -, -⟩ :=
    openHeaders_ok env fs { header := junk, trace := st.trace } opt.num_files hopen
  exact ⟨_, by simp only [MPIDomainExtentGadget, extentCoordinator, hloc, if_true]; rfl⟩

/-- The coordinator's extent step leaves with `exit(0)` when a file does not open. -/
theorem MPIDomainExtentGadget_aborts {F : Type} (ops : FloatOps F) (env : Env F)
    (MPIEXPANDLIM : Bool) (opt : Options) (fs : Nat → Option (GadgetFile F))
    (junk : Nat → gadget_header F) (NProcs : Nat) (st : MPIState F) (i : Nat)
    (hi : i < opt.num_files) (hfail : fs i = none) :
    ∃ e, MPIDomainExtentGadget ops env MPIEXPANDLIM opt fs junk 0 NProcs st = Except.error e := by
  obtain ⟨e, he⟩ :=
    openHeaders_fail env fs { header := junk, trace := st.trace } opt.num_files i hi hfail
  exact ⟨e, by simp only [MPIDomainExtentGadget, extentCoordinator, he, if_true]⟩

/-- On a rank other than the coordinator, in a job of several ranks, the extent
step changes nothing. -/
theorem MPIDomainExtentGadget_other {F : Type} (ops : FloatOps F) (env : Env F)
    (MPIEXPANDLIM : Bool) (opt : Options) (fs : Nat → Option (GadgetFile F))
    (junk : Nat → gadget_header F) (ThisTask NProcs : Nat) (st : MPIState F)
    (ht : ThisTask ≠ 0) (hP : NProcs ≠ 1) :
    MPIDomainExtentGadget ops env MPIEXPANDLIM opt fs junk ThisTask NProcs st = Except.ok st := by
  simp [MPIDomainExtentGadget, ht, hP]

/-- The job ends normally when the coordinator's files open, and then every rank
holds its slot of the two reduced arrays. -/
theorem MPINumInDomainGadget_ok {F : Type} (ops : FloatOps F) (env : Env F)
    (MPIEXPANDLIM : Bool) (opt : Options) (fs : Nat → Nat → Option (GadgetFile F))
    (junkH : Nat → Nat → gadget_header F) (junkC : Nat → F × F × F) (NProcs : Nat)
    (st : Nat → MPIState F) (hP : 1 < NProcs)
    (hopen : ∀ i, i < opt.num_files → (fs 0 i).isSome = true) :
    ∃ st1, MPINumInDomainGadget ops env MPIEXPANDLIM opt fs junkH junkC NProcs st
        = Except.ok st1 ∧
      (∀ r, (st1 r).Nlocal = MPI_Allreduce_SUM NProcs
        (fun q => (localCounts env opt (fs q) (junkH q) (junkC q) q).Nbuf) r) ∧
      (∀ r, opt.iBaryonSearch ≠ 0 → (st1 r).Nlocalbaryon0 = MPI_Allreduce_SUM NProcs
        (fun q => (localCounts env opt (fs q) (junkH q) (junkC q) q).Nbaryonbuf) r) := by
  obtain ⟨st0, h0⟩ :=
    MPIDomainExtentGadget_ok ops env MPIEXPANDLIM opt (fs 0) (junkH 0) NProcs (st 0) hopen
  refine ⟨_, by simp only [MPINumInDomainGadget, hP, if_true, h0]; rfl, fun r => rfl, ?_⟩
  intro r hb
  simp only [countAndReduce, hb, ne_eq, not_false_eq_true, if_true]

/-- C2. In a job of `NProcs > 1` ranks where every rank finds the files `snap` and
each file is read by exactly one rank, `MPINumInDomainGadget` ends normally and
`Nlocal` on rank `r` is the number of particles, over all files and the six
type slots, that pass the type test and whose owner is `r`. The right-hand side
mentions neither `ireadtask` nor `MPISetFilesRead`. -/
theorem Nlocal_eq_ownedCount {F : Type} (ops : FloatOps F) (env : Env F)
    (MPIEXPANDLIM : Bool) (opt : Options) (fs : Nat → Nat → Option (GadgetFile F))
    (snap : Nat → GadgetFile F) (junkH : Nat → Nat → gadget_header F)
    (junkC : Nat → F × F × F) (NProcs : Nat) (st : Nat → MPIState F) (hP : 1 < NProcs)
    (hfs : ∀ r i, r < NProcs → i < opt.num_files → fs r i = some (snap i))
    (hread : EachFileReadOnce env opt.num_files NProcs) :
    ∃ st1, MPINumInDomainGadget ops env MPIEXPANDLIM opt fs junkH junkC NProcs st
        = Except.ok st1 ∧
      ∀ r, r < NProcs → (st1 r).Nlocal =
        ownedCount env.Endian env.MPIGetParticlesProcessor (countsInAssignment opt)
          opt.num_files snap r := by
  obtain ⟨st1, hok, hN, -⟩ := MPINumInDomainGadget_ok ops env MPIEXPANDLIM opt fs junkH junkC
    NProcs st hP (fun i hi => by rw [hfs 0 i (by omega) hi]; rfl)
  refine ⟨st1, hok, fun r _ => ?_⟩
  rw [hN r]
  exact (reduce_counts env opt fs snap junkH junkC NProcs hfs hread r).1

theorem Nlocal_eq_ownedCount_witness :
    1 < 2 ∧ EachFileReadOnce exampleEnv 2 2 ∧
    ∃ st1, MPINumInDomainGadget intOps exampleEnv false
        { num_files := 2, partsearchtype := PSTDARK, iBaryonSearch := 1 }
        (fun _ _ => some (exampleFile 1 3 0 0 2 0)) (fun _ _ => exampleHeader 9 9 9 9 9 9)
        (fun _ => (0, 0, 0)) 2 (fun _ => zeroState) = Except.ok st1 ∧
      ∀ r, r < 2 → (st1 r).Nlocal =
        ownedCount exampleEnv.Endian exampleEnv.MPIGetParticlesProcessor
          (countsInAssignment { num_files := 2, partsearchtype := PSTDARK, iBaryonSearch := 1 })
          2 (fun _ => exampleFile 1 3 0 0 2 0) r :=
  ⟨by decide, by decide,
    Nlocal_eq_ownedCount intOps exampleEnv false
      { num_files := 2, partsearchtype := PSTDARK, iBaryonSearch := 1 }
      (fun _ _ => some (exampleFile 1 3 0 0 2 0)) (fun _ => exampleFile 1 3 0 0 2 0)
      (fun _ _ => exampleHeader 9 9 9 9 9 9) (fun _ => (0, 0, 0)) 2 (fun _ => zeroState)
      (by decide) (fun _ _ _ _ => rfl) (by decide)⟩

/-- A property kept by every round of a loop holds after the loop. -/
theorem forLoop_inv {σ : Type} (P : σ → Prop) (body : Nat → σ → σ) (n : Nat) (s : σ)
    (h0 : P s) (hstep : ∀ i s1, P s1 → P (body i s1)) : P (forLoop n body s) := by
  induction n with
  | zero => exact h0
  | succ n ih => exact hstep n _ ih

/-- A particle whose type test does not reach the baryon statement leaves
`Nbaryonbuf` alone, whether or not the file opened. -/
theorem countParticle_noBaryon {F : Type} (env : Env F) (opt : Options)
    (file : Option (GadgetFile F)) (i k n : Nat) (rs : ReadState F)
    (h : countsAsBaryon opt k = false) :
    (countParticle env opt file i k n rs).Nbaryonbuf = rs.Nbaryonbuf := by
  unfold countsAsBaryon at h
  unfold countParticle
  cases ha : assignmentAction opt k <;> cases file <;> simp_all

/-- When no type slot reaches the baryon statement, `Nbaryonbuf` is all zero on
every rank after the file loop, whatever the files are. -/
theorem localCounts_noBaryon {F : Type} (env : Env F) (opt : Options)
    (fs : Nat → Option (GadgetFile F)) (junkH : Nat → gadget_header F) (junkC : F × F × F)
    (r : Nat) (h : ∀ k, countsAsBaryon opt k = false) (s : Nat) :
    (localCounts env opt fs junkH junkC r).Nbaryonbuf s = 0 := by
  have key : (localCounts env opt fs junkH junkC r).Nbaryonbuf = fun _ => 0 := by
    unfold localCounts
    split
    · apply forLoop_inv (fun rs : ReadState F => rs.Nbaryonbuf = fun _ => 0)
      · rfl
      · intro i rs hrs
        split
        · unfold readFile
          simp only
          apply forLoop_inv (fun rs : ReadState F => rs.Nbaryonbuf = fun _ => 0)
          · cases fs i <;> exact hrs
          · intro k rs1 hrs1
            apply forLoop_inv (fun rs : ReadState F => rs.Nbaryonbuf = fun _ => 0)
            · exact hrs1
            · intro n rs2 hrs2
              rw [countParticle_noBaryon env opt (fs i) i k n rs2 (h k)]
              exact hrs2
        · exact hrs
    · rfl
  rw [key]

theorem countsAsBaryon_dark (opt : Options) (hd : opt.partsearchtype = PSTDARK)
    (hb : opt.iBaryonSearch ≠ 0) : countsAsBaryon opt = isBaryonType := by
  funext k
  rw [Bool.eq_iff_iff, countsAsBaryon_iff]
  simp [isBaryonType, GGASTYPE, GSTARTYPE, GBHTYPE, hd, hb]

theorem countsAsBaryon_off (opt : Options)
    (h : ¬ (opt.partsearchtype = PSTDARK ∧ opt.iBaryonSearch ≠ 0)) (k : Nat) :
    countsAsBaryon opt k = false := by
  rw [← Bool.not_eq_true, countsAsBaryon_iff]
  intro hc
  exact h ⟨hc.1, hc.2.1⟩

/-- C9. In a job of `NProcs > 1` ranks where every rank finds the files `snap` and
each file is read by exactly one rank: one particle read adds one to
`Nbaryonbuf` at its owner exactly when the filter is DARK_MATTER, baryon search
is on and the type is gas, star or black hole; with that filter and baryon
search on, `Nlocalbaryon[0]` on rank `r` is the number of gas, star and black
hole particles owned by `r`; in every other case `Nbaryonbuf` is all zero on
every rank. -/
theorem baryon_counts {F : Type} (ops : FloatOps F) (env : Env F)
    (MPIEXPANDLIM : Bool) (opt : Options) (fs : Nat → Nat → Option (GadgetFile F))
    (snap : Nat → GadgetFile F) (junkH : Nat → Nat → gadget_header F)
    (junkC : Nat → F × F × F) (NProcs : Nat) (st : Nat → MPIState F) (hP : 1 < NProcs)
    (hfs : ∀ r i, r < NProcs → i < opt.num_files → fs r i = some (snap i))
    (hread : EachFileReadOnce env opt.num_files NProcs) :
    (∀ (f : GadgetFile F) (i k n : Nat) (rs : ReadState F) (s : Nat),
      (countParticle env opt (some f) i k n rs).Nbaryonbuf s = rs.Nbaryonbuf s +
        (if opt.partsearchtype = PSTDARK ∧ opt.iBaryonSearch ≠ 0 ∧ isBaryonType k = true ∧
            env.MPIGetParticlesProcessor (f.pos k n).1 (f.pos k n).2.1 (f.pos k n).2.2 = s
          then 1 else 0)) ∧
    (∃ st1, MPINumInDomainGadget ops env MPIEXPANDLIM opt fs junkH junkC NProcs st
        = Except.ok st1 ∧
      (opt.partsearchtype = PSTDARK → opt.iBaryonSearch ≠ 0 →
        ∀ r, r < NProcs → (st1 r).Nlocalbaryon0 =
          ownedCount env.Endian env.MPIGetParticlesProcessor isBaryonType
            opt.num_files snap r)) ∧
    (¬ (opt.partsearchtype = PSTDARK ∧ opt.iBaryonSearch ≠ 0) →
      ∀ r s, (localCounts env opt (fs r) (junkH r) (junkC r) r).Nbaryonbuf s = 0) := by
  refine ⟨?_, ?_, ?_⟩
  · intro f i k n rs s
    rw [(countParticle_some env opt f i k n rs).2.2 s]
    congr 1
    by_cases hc : opt.partsearchtype = PSTDARK ∧ opt.iBaryonSearch ≠ 0
    · rw [countsAsBaryon_dark opt hc.1 hc.2]
      simp [ownedBy, hc.1, hc.2]
    · rw [countsAsBaryon_off opt hc k]
      have : ¬ (opt.partsearchtype = PSTDARK ∧ opt.iBaryonSearch ≠ 0 ∧ isBaryonType k = true ∧
          env.MPIGetParticlesProcessor (f.pos k n).1 (f.pos k n).2.1 (f.pos k n).2.2 = s) :=
        fun h => hc ⟨h.1, h.2.1⟩
      simp [ownedBy, this]
  · obtain ⟨st1, hok, -, hB⟩ := MPINumInDomainGadget_ok ops env MPIEXPANDLIM opt fs junkH junkC
      NProcs st hP (fun i hi => by rw [hfs 0 i (by omega) hi]; rfl)
    refine ⟨st1, hok, fun hd hb r _ => ?_⟩
    rw [hB r hb, (reduce_counts env opt fs snap junkH junkC NProcs hfs hread r).2,
      countsAsBaryon_dark opt hd hb]
  · intro hc r s
    exact localCounts_noBaryon env opt (fs r) (junkH r) (junkC r) r (countsAsBaryon_off opt hc) s

theorem baryon_counts_witness :
    1 < 2 ∧ EachFileReadOnce exampleEnv 2 2 ∧
    ∃ st1, MPINumInDomainGadget intOps exampleEnv false
        { num_files := 2, partsearchtype := PSTDARK, iBaryonSearch := 1 }
        (fun _ _ => some (exampleFile 1 3 0 0 2 0)) (fun _ _ => exampleHeader 9 9 9 9 9 9)
        (fun _ => (0, 0, 0)) 2 (fun _ => zeroState) = Except.ok st1 ∧
      (PSTDARK = PSTDARK → (1 : Int) ≠ 0 → ∀ r, r < 2 → (st1 r).Nlocalbaryon0 =
        ownedCount exampleEnv.Endian exampleEnv.MPIGetParticlesProcessor isBaryonType
          2 (fun _ => exampleFile 1 3 0 0 2 0) r) :=
  ⟨by decide, by decide,
    (baryon_counts intOps exampleEnv false
      { num_files := 2, partsearchtype := PSTDARK, iBaryonSearch := 1 }
      (fun _ _ => some (exampleFile 1 3 0 0 2 0)) (fun _ => exampleFile 1 3 0 0 2 0)
      (fun _ _ => exampleHeader 9 9 9 9 9 9) (fun _ => (0, 0, 0)) 2 (fun _ => zeroState)
      (by decide) (fun _ _ _ _ => rfl) (by decide)).2.1⟩

/-! ### Totals over all ranks -/

theorem ownedBy_sum (c : Bool) (o NProcs : Nat) (ho : o < NProcs) :
    ∑ r in Finset.range NProcs, ownedBy c o r = if c = true then 1 else 0 := by
  unfold ownedBy
  cases c
  · simp
  · simp [Finset.sum_ite_eq, ho]

/-- Summed over the ranks, the owned particles are the header total of the
type slots passing the test, when every owner is a rank of the job. -/
theorem ownedCount_sum {F : Type} (Endian : gadget_header F → gadget_header F)
    (owner : F → F → F → Nat) (test : Nat → Bool) (num_files : Nat)
    (snap : Nat → GadgetFile F) (NProcs : Nat) (howner : ∀ x y z, owner x y z < NProcs) :
    ∑ r in Finset.range NProcs, ownedCount Endian owner test num_files snap r =
      headerTotal Endian test num_files snap := by
  unfold ownedCount fileCount headerTotal
  rw [Finset.sum_comm]
  refine Finset.sum_congr rfl (fun i _ => ?_)
  rw [Finset.sum_comm]
  refine Finset.sum_congr rfl (fun k _ => ?_)
  rw [Finset.sum_comm]
  have : ∀ n ∈ Finset.range ((Endian (snap i).header).npart k),
      ∑ r in Finset.range NProcs, ownedBy (test k)
        (owner ((snap i).pos k n).1 ((snap i).pos k n).2.1 ((snap i).pos k n).2.2) r =
      if test k = true then 1 else 0 :=
    fun n _ => ownedBy_sum _ _ _ (howner _ _ _)
  rw [Finset.sum_congr rfl this]
  split <;> simp

/-- A loop that adds `g i` in round `i` adds the sum of the `g i`. -/
theorem forLoop_add (body : Nat → Int → Int) (g : Nat → Int)
    (hbody : ∀ i N, body i N = N + g i) (n : Nat) (a : Int) :
    forLoop n body a = a + ∑ i in Finset.range n, g i := by
  induction n with
  | zero => simp [forLoop]
  | succ n ih => rw [forLoop, hbody, ih, Finset.sum_range_succ, add_assoc]

/-- The header total `Ntot` as a double sum. -/
theorem headerNtot_eq {F : Type} (opt : Options) (header : Nat → gadget_header F) :
    headerNtot opt header = ∑ i in Finset.range opt.num_files, ∑ j in Finset.range 6,
      if countsInNtot opt.partsearchtype j = true then ((header i).npart j : Int) else 0 := by
  unfold headerNtot
  rw [forLoop_add _ (fun i => ∑ j in Finset.range 6,
      if countsInNtot opt.partsearchtype j = true then ((header i).npart j : Int) else 0)]
  · simp
  · intro i N
    rw [forLoop_add _ (fun j =>
      if countsInNtot opt.partsearchtype j = true then ((header i).npart j : Int) else 0)]
    intro j N1
    split <;> simp

/-- C1, as amended. In a job of `NProcs > 1` ranks where every rank finds the
files `snap`, each file is read by exactly one rank and every owner is a rank
of the job, `MPINumInDomainGadget` ends normally; the sum of `Nlocal` over the
ranks is the total of the headers' `npart` over the type slots the assignment
pass counts; with baryon search on, the sum of `Nlocalbaryon[0]` over the ranks
is the total of the headers' `npart` over the slots it counts as baryons; for
the filter ALL the sum of `Nlocal` is the header total `Ntot`. -/
theorem roundtrip_assignment_filter {F : Type} (ops : FloatOps F) (env : Env F)
    (MPIEXPANDLIM : Bool) (opt : Options) (fs : Nat → Nat → Option (GadgetFile F))
    (snap : Nat → GadgetFile F) (junkH : Nat → Nat → gadget_header F)
    (junkC : Nat → F × F × F) (NProcs : Nat) (st : Nat → MPIState F) (hP : 1 < NProcs)
    (hfs : ∀ r i, r < NProcs → i < opt.num_files → fs r i = some (snap i))
    (hread : EachFileReadOnce env opt.num_files NProcs)
    (howner : ∀ x y z, env.MPIGetParticlesProcessor x y z < NProcs) :
    ∃ st1, MPINumInDomainGadget ops env MPIEXPANDLIM opt fs junkH junkC NProcs st
        = Except.ok st1 ∧
      ∑ r in Finset.range NProcs, (st1 r).Nlocal =
        headerTotal env.Endian (countsInAssignment opt) opt.num_files snap ∧
      (opt.iBaryonSearch ≠ 0 → ∑ r in Finset.range NProcs, (st1 r).Nlocalbaryon0 =
        headerTotal env.Endian (countsAsBaryon opt) opt.num_files snap) ∧
      (opt.partsearchtype = PSTALL → ∑ r in Finset.range NProcs, (st1 r).Nlocal =
        headerNtot opt (fun i => env.Endian (snap i).header)) := by
  obtain ⟨st1, hok, hN, hB⟩ := MPINumInDomainGadget_ok ops env MPIEXPANDLIM opt fs junkH junkC
    NProcs st hP (fun i hi => by rw [hfs 0 i (by omega) hi]; rfl)
  have hsum : ∑ r in Finset.range NProcs, (st1 r).Nlocal =
      headerTotal env.Endian (countsInAssignment opt) opt.num_files snap := by
    rw [← ownedCount_sum env.Endian env.MPIGetParticlesProcessor _ _ _ NProcs howner]
    refine Finset.sum_congr rfl (fun r _ => ?_)
    rw [hN r]
    exact (reduce_counts env opt fs snap junkH junkC NProcs hfs hread r).1
  refine ⟨st1, hok, hsum, ?_, ?_⟩
  · intro hb
    rw [← ownedCount_sum env.Endian env.MPIGetParticlesProcessor _ _ _ NProcs howner]
    refine Finset.sum_congr rfl (fun r _ => ?_)
    rw [hB r hb]
    exact (reduce_counts env opt fs snap junkH junkC NProcs hfs hread r).2
  · intro hall
    rw [hsum, headerNtot_eq]
    unfold headerTotal
    refine Finset.sum_congr rfl (fun i _ => Finset.sum_congr rfl (fun k _ => ?_))
    have h1 : countsInAssignment opt k = true := (countsInAssignment_iff opt k).2 (Or.inl hall)
    have h2 : countsInNtot opt.partsearchtype k = true :=
      (countsInNtot_iff opt.partsearchtype k).2 (Or.inl hall)
    rw [if_pos h1, if_pos h2]

theorem exampleEnv_owner (x y z : Int) : exampleEnv.MPIGetParticlesProcessor x y z < 2 := by
  show (y % 2).toNat < 2
  omega

theorem roundtrip_assignment_filter_witness :
    1 < 2 ∧ EachFileReadOnce exampleEnv 2 2 ∧
    (∀ x y z, exampleEnv.MPIGetParticlesProcessor x y z < 2) ∧
    ∃ st1, MPINumInDomainGadget intOps exampleEnv false
        { num_files := 2, partsearchtype := PSTDARK, iBaryonSearch := 1 }
        (fun _ _ => some (exampleFile 1 3 0 0 2 0)) (fun _ _ => exampleHeader 9 9 9 9 9 9)
        (fun _ => (0, 0, 0)) 2 (fun _ => zeroState) = Except.ok st1 ∧
      ∑ r in Finset.range 2, (st1 r).Nlocal =
        headerTotal exampleEnv.Endian
          (countsInAssignment { num_files := 2, partsearchtype := PSTDARK, iBaryonSearch := 1 })
          2 (fun _ => exampleFile 1 3 0 0 2 0) :=
  ⟨by decide, by decide, exampleEnv_owner,
    (roundtrip_assignment_filter intOps exampleEnv false
      { num_files := 2, partsearchtype := PSTDARK, iBaryonSearch := 1 }
      (fun _ _ => some (exampleFile 1 3 0 0 2 0)) (fun _ => exampleFile 1 3 0 0 2 0)
      (fun _ _ => exampleHeader 9 9 9 9 9 9) (fun _ => (0, 0, 0)) 2 (fun _ => zeroState)
      (by decide) (fun _ _ _ _ => rfl) (by decide) exampleEnv_owner).imp
      (fun _ h => ⟨h.1, h.2.1⟩)⟩

/-! ### The boundary walk -/

/-- On a grid with one partition along the second axis and two along the third,
which the split-count step never produces, the walk alone leaves the inner
boundary of the third axis as it found it. -/
theorem boundaryWalk_alone_one_by_two :
    (boundaryWalk intOps exampleHistograms exampleVars
      { exampleState with mpi_nxsplit := arr3 1 2 1 }).mpi_domain 0 1 1 = 1011 ∧
    (boundaryWalk intOps exampleHistograms exampleVars
      { exampleState with mpi_nxsplit := arr3 1 2 1 }).mpi_domain 1 1 0 = 1110 := by
  decide

/-! ### Counterexample and failing input -/

/-- C1, counterexample. Two ranks, one file holding a single gas particle, filter
DARK_MATTER with baryon search on, rank 0 reading the file and every owner in
range: the counts summed over the ranks give 1, the header total `Ntot` is 0. -/
theorem roundtrip_counterexample :
    1 < 2 ∧ EachFileReadOnce exampleEnv 1 2 ∧
    (∀ x y z, exampleEnv.MPIGetParticlesProcessor x y z < 2) ∧
    ∃ st1, MPINumInDomainGadget intOps exampleEnv false
        { num_files := 1, partsearchtype := PSTDARK, iBaryonSearch := 1 }
        (fun _ _ => some (exampleFile 1 0 0 0 0 0)) (fun _ _ => exampleHeader 9 9 9 9 9 9)
        (fun _ => (0, 0, 0)) 2 (fun _ => zeroState) = Except.ok st1 ∧
      ∑ r in Finset.range 2, ((st1 r).Nlocal + (st1 r).Nlocalbaryon0) = 1 ∧
      headerNtot { num_files := 1, partsearchtype := PSTDARK, iBaryonSearch := 1 }
        (fun _ => exampleEnv.Endian (exampleFile 1 0 0 0 0 0).header) = 0 :=
  ⟨by decide, by decide, exampleEnv_owner, _, rfl, by decide, by decide⟩

/-- C8, failing input. Two ranks and one file that rank 1, the reader, cannot
open: the extent step on a file that does not open leaves with `exit(0)`, but
the assignment pass goes on, runs its loops on the `header` array as allocated
(here three particles of slot 1) and `MPINumInDomainGadget` ends normally with
`Nlocal = 3` on rank 0. -/
theorem assignment_pass_continues_on_open_failure :
    (∃ e, MPIDomainExtentGadget intOps readerOneEnv false
        { num_files := 1, partsearchtype := PSTALL, iBaryonSearch := 0 }
        (fun _ => none) (fun _ => exampleHeader 0 3 0 0 0 0) 0 2 zeroState = Except.error e) ∧
    ∃ st1, MPINumInDomainGadget intOps readerOneEnv false
        { num_files := 1, partsearchtype := PSTALL, iBaryonSearch := 0 }
        (fun r _ => if r = 0 then some (exampleFile 1 0 0 0 0 0) else none)
        (fun _ _ => exampleHeader 0 3 0 0 0 0) (fun _ => (0, 0, 0)) 2 (fun _ => zeroState)
          = Except.ok st1 ∧
      (st1 0).Nlocal = 3 ∧ (st1 1).Nlocal = 0 ∧ (st1 1).trace = [FileOp.openFailed 0] :=
  ⟨⟨_, rfl⟩, _, rfl, by decide, by decide, by decide⟩

/-! ### Byte order in the assignment pass -/

/-- The particle step of the assignment pass does not depend on `LittleFloat`. -/
theorem countParticle_ignores_LittleFloat {F : Type} (env : Env F) (c : F → F)
    (opt : Options) (file : Option (GadgetFile F)) (i k n : Nat) (rs : ReadState F) :
    countParticle { env with LittleFloat := c } opt file i k n rs =
      countParticle env opt file i k n rs :=
  rfl

/-- The particle step of the second histogram pass looks its bins up at the
position corrected with `LittleFloat`: correcting with `c` a stored position is
the same as storing the corrected position on a host that needs no correction. -/
theorem histoFillParticle_corrects {F : Type} (ops : FloatOps F) (env : Env F) (c : F → F)
    (opt : Options) (mpi_ideltax : Nat → Nat) (pos : F × F × F) (k : Nat) (fl : FillState F) :
    histoFillParticle ops { env with LittleFloat := c } opt mpi_ideltax pos k fl =
      histoFillParticle ops { env with LittleFloat := fun x => x } opt mpi_ideltax
        (c pos.1, c pos.2.1, c pos.2.2) k fl :=
  rfl

/-- C11, failing input. On a host where `LittleFloat` changes a float, with one
particle stored at `(1, 0, 0)` whose corrected position `(2, 1, 1)` belongs to
rank 1: the assignment pass looks the owner up at the stored position and
counts the particle for rank 0; the count at the corrected position is 0 for
rank 0 and 1 for rank 1. -/
theorem assignment_pass_uses_stored_position :
    ∃ st1, MPINumInDomainGadget intOps swappingEnv false
        { num_files := 1, partsearchtype := PSTALL, iBaryonSearch := 0 }
        (fun _ _ => some (exampleFile 0 1 0 0 0 0)) (fun _ _ => exampleHeader 9 9 9 9 9 9)
        (fun _ => (0, 0, 0)) 2 (fun _ => zeroState) = Except.ok st1 ∧
      (st1 0).Nlocal = 1 ∧ (st1 1).Nlocal = 0 ∧
      ownedCount swappingEnv.Endian (correctedOwner swappingEnv)
        (countsInAssignment { num_files := 1, partsearchtype := PSTALL, iBaryonSearch := 0 })
        1 (fun _ => exampleFile 0 1 0 0 0 0) 0 = 0 ∧
      ownedCount swappingEnv.Endian (correctedOwner swappingEnv)
        (countsInAssignment { num_files := 1, partsearchtype := PSTALL, iBaryonSearch := 0 })
        1 (fun _ => exampleFile 0 1 0 0 0 0) 1 = 1 :=
  ⟨_, rfl, by decide, by decide, by decide, by decide⟩

/-! ### The 3-D histogram index -/

/-- One round of the third-axis scan reads `histo3d` at `readIndex3d`. -/
theorem scan2_reads {F : Type} (ops : FloatOps F) (h : Histograms F) (g : Grid)
    (fuel : Nat) (n3 : Int) (v : WalkVars F) (hn : n3 < h.nbins3d) :
    ∃ v1 : WalkVars F,
      v1.lastbin = forRange v.start0 v.end0
        (fun n1 acc => forRange v.start1 v.end1
          (fun n2 acc1 => ops.add acc1 (h.histo3d (readIndex3d h.nbins3d n1 n2 n3))) acc)
        (ops.ofInt 0) ∧
      (scan2 ops h g (fuel + 1) n3 v = scan2 ops h g fuel (n3 + 1) v1 ∨
        scan2 ops h g (fuel + 1) n3 v = { v1 with
          end2 := n3
          bndval2 := ops.add (h.histo3dbinval n3 2)
            (ops.div
              (ops.mul
                (ops.sub
                  (ops.div (ops.ofInt h.Ntot) (ops.ofInt ((g.nx * g.ny * g.nz : Nat) : Int)))
                  v1.binsum2)
                (ops.sub (h.histo3dbinval n3 2) (h.histo3dbinval (n3 - 1) 2)))
              v1.lastbin) }) := by
  refine ⟨{ v with
    lastbin := forRange v.start0 v.end0
      (fun n1 acc => forRange v.start1 v.end1
        (fun n2 acc1 => ops.add acc1 (h.histo3d (readIndex3d h.nbins3d n1 n2 n3))) acc)
      (ops.ofInt 0)
    binsum2 := ops.add v.binsum2 (forRange v.start0 v.end0
      (fun n1 acc => forRange v.start1 v.end1
        (fun n2 acc1 => ops.add acc1 (h.histo3d (readIndex3d h.nbins3d n1 n2 n3))) acc)
      (ops.ofInt 0)) }, rfl, ?_⟩
  simp only [scan2, hn, if_true, readIndex3d]
  split
  · exact Or.inr rfl
  · exact Or.inl rfl

/-- For a bin count of at least one and a bin triple in range, the cell the fill
step increments is never the cell the walk reads for the triple. -/
theorem fillIndex3d_ne_readIndex3d (n a b c : Int) (hn : 1 ≤ n) (hb0 : 0 ≤ b) (hb : b < n) :
    fillIndex3d n (ibin3 a b c) ≠ readIndex3d n a b c := by
  unfold fillIndex3d readIndex3d
  simp only [ibin3, if_true, if_false, Nat.one_ne_zero, Nat.succ_ne_zero,
    show (2 : Nat) ≠ 0 by decide, show (2 : Nat) ≠ 1 by decide]
  intro he
  have hkey : b + n = b * n := by linarith
  rcases Int.lt_or_le b 2 with h2 | h2
  · have hb01 : b = 0 ∨ b = 1 := by omega
    rcases hb01 with rfl | rfl
    · simp at hkey; omega
    · simp at hkey
  · have h1 : 0 ≤ (b - 2) * n := mul_nonneg (by omega) (by omega)
    nlinarith

/-- C13. As compiled, `MPIDomainDecompositionGadget` returns the state it is
given, on every rank and for every options value: `mpi_domain`, `mpi_xlim`,
`mpi_nxsplit` and `mpi_ideltax` are as before the call; and after the
assignment pass every rank still holds the box table, the extent, the split
plan and the axis order that `MPIInitialDomainDecomposition` left. -/
theorem MPIDomainDecompositionGadget_changes_nothing {F : Type} (env : Env F)
    (opt : Options) (fs : Nat → Nat → Option (GadgetFile F))
    (junkH : Nat → Nat → gadget_header F) (junkC : Nat → F × F × F) (NProcs : Nat)
    (st : Nat → MPIState F) (ThisTask : Nat) (s : MPIState F) :
    MPIDomainDecompositionGadget opt ThisTask s = s ∧
    (MPIDomainDecompositionGadget opt ThisTask s).mpi_domain = s.mpi_domain ∧
    (MPIDomainDecompositionGadget opt ThisTask s).mpi_xlim = s.mpi_xlim ∧
    (MPIDomainDecompositionGadget opt ThisTask s).mpi_nxsplit = s.mpi_nxsplit ∧
    (MPIDomainDecompositionGadget opt ThisTask s).mpi_ideltax = s.mpi_ideltax ∧
    (countAndReduce env opt fs junkH junkC NProcs st ThisTask).mpi_domain =
      (env.MPIInitialDomainDecomposition (st ThisTask)).mpi_domain ∧
    (countAndReduce env opt fs junkH junkC NProcs st ThisTask).mpi_xlim =
      (env.MPIInitialDomainDecomposition (st ThisTask)).mpi_xlim ∧
    (countAndReduce env opt fs junkH junkC NProcs st ThisTask).mpi_nxsplit =
      (env.MPIInitialDomainDecomposition (st ThisTask)).mpi_nxsplit ∧
    (countAndReduce env opt fs junkH junkC NProcs st ThisTask).mpi_ideltax =
      (env.MPIInitialDomainDecomposition (st ThisTask)).mpi_ideltax := by
  have h : ∀ s1 : MPIState F, MPIDomainDecompositionGadget opt ThisTask s1 = s1 := by
    intro s1
    unfold MPIDomainDecompositionGadget
    split <;> rfl
  refine ⟨h s, by rw [h], by rw [h], by rw [h], by rw [h], ?_, ?_, ?_, ?_⟩ <;>
    simp only [countAndReduce, h]

/-- C14. With `NProcs = 1`, `MPINumInDomainGadget` ends normally and returns the
state it is given: `mpi_xlim`, `mpi_domain`, `Nlocal` and `Nlocalbaryon[0]` are
as before the call, and the record of file operations is as before, so no
snapshot file is opened. -/
theorem MPINumInDomainGadget_sole_rank_unchanged {F : Type} (ops : FloatOps F) (env : Env F)
    (MPIEXPANDLIM : Bool) (opt : Options) (fs : Nat → Nat → Option (GadgetFile F))
    (junkH : Nat → Nat → gadget_header F) (junkC : Nat → F × F × F)
    (st : Nat → MPIState F) :
    MPINumInDomainGadget ops env MPIEXPANDLIM opt fs junkH junkC 1 st = Except.ok st ∧
    ∃ st1, MPINumInDomainGadget ops env MPIEXPANDLIM opt fs junkH junkC 1 st = Except.ok st1 ∧
      ∀ r, (st1 r).mpi_xlim = (st r).mpi_xlim ∧ (st1 r).mpi_domain = (st r).mpi_domain ∧
        (st1 r).Nlocal = (st r).Nlocal ∧ (st1 r).Nlocalbaryon0 = (st r).Nlocalbaryon0 ∧
        (st1 r).trace = (st r).trace := by
  have h : MPINumInDomainGadget ops env MPIEXPANDLIM opt fs junkH junkC 1 st = Except.ok st := by
    simp [MPINumInDomainGadget]
  exact ⟨h, st, h, fun _ => ⟨rfl, rfl, rfl, rfl, rfl⟩⟩

/-! ### The type filter in the compiled passes -/

end Gadget
